import Mathlib

/-!
Verification of the Winza round-settlement engine.

This file shallowly embeds the two settlement variants of the repository:

* the tiered ticket lottery (`src/smartcontract/lottery-rounds/src/state.rs`), and
* the binary up/down prediction market (`src/smartcontract/rounds/src/state.rs`),

and proves (or refutes) the frozen specification claims about them.

Modelling conventions:

* `u64` and `u128` machine integers are modelled as `Nat` with explicit
  wrap-around (`% 2^64`, `% 2^128`) wherever the Rust source performs plain
  arithmetic (release builds wrap on overflow), and with explicit saturation
  where the source calls `saturating_add`.  `Amount` is its `u128` atto count.
* The monotonically increasing `u64` round counter is modelled as an unbounded
  `Nat`: overflowing it needs 2^64 `create` operations, the standard
  counter-does-not-overflow modelling assumption.
* linera `MapView`s are modelled as association lists with insert-erases-key
  semantics (`mapInsert`), which matches the unique-key view semantics;
  `RegisterView` fields are plain fields.
* `AccountOwner` and chain ids are opaque and modelled as `Nat`.
* Fallible operations return `Except String`; a Rust `panic!` in the contract
  aborts the transaction, so a failed operation leaves the state unchanged in
  the operational semantics (`lotteryStep` / `predStep`).
* `eprintln!` logging has no state effect and is omitted.
-/

namespace Winza

/-- 2^64, the wrap-around modulus of `u64` arithmetic. -/
def U64 : Nat := 2 ^ 64

/-- 2^128, the wrap-around modulus of `u128` arithmetic. -/
def U128 : Nat := 2 ^ 128

/-- Plain `u64` arithmetic result, wrapped. -/
def wrap64 (x : Nat) : Nat := x % U64

/-- `u128::saturating_add`. -/
def satAdd128 (a b : Nat) : Nat := if a + b ≤ U128 - 1 then a + b else U128 - 1

/-- `MapView::get`: first binding of the key in the association list. -/
def mapGet {K V : Type} [DecidableEq K] (m : List (K × V)) (k : K) : Option V :=
  (m.find? fun p => p.1 = k).map (fun p => p.2)

/-- `MapView::insert`: bind the key, erasing any previous binding. -/
def mapInsert {K V : Type} [DecidableEq K] (m : List (K × V)) (k : K) (v : V) :
    List (K × V) :=
  (k, v) :: m.filter fun p => ¬ p.1 = k

/-- `MapView::remove`. -/
def mapRemove {K V : Type} [DecidableEq K] (m : List (K × V)) (k : K) :
    List (K × V) :=
  m.filter fun p => ¬ p.1 = k

/-- `MapView::indices`: the keys. -/
def mapKeys {K V : Type} (m : List (K × V)) : List K := m.map fun p => p.1

theorem mapGet_cons_ne {K V : Type} [DecidableEq K]
    (m : List (K × V)) (p : K × V) (k : K) (h : ¬ p.1 = k) :
    mapGet (p :: m) k = mapGet m k := by
  simp [mapGet, List.find?, decide_eq_false h]

theorem mapGet_cons_self {K V : Type} [DecidableEq K]
    (m : List (K × V)) (p : K × V) (k : K) (h : p.1 = k) :
    mapGet (p :: m) k = some p.2 := by
  simp [mapGet, List.find?, h]

/-- A filter keeping every binding of key `k` leaves `mapGet _ k` unchanged. -/
theorem mapGet_filter_keep {K V : Type} [DecidableEq K]
    (m : List (K × V)) (Q : K × V → Bool) (k : K)
    (hkeep : ∀ v, Q (k, v) = true) : mapGet (m.filter Q) k = mapGet m k := by
  induction m with
  | nil => rfl
  | cons p m ih =>
    obtain ⟨a, b⟩ := p
    by_cases hk : a = k
    · subst hk
      simp only [List.filter, hkeep b]
      rw [mapGet_cons_self _ _ _ rfl, mapGet_cons_self _ _ _ rfl]
    · by_cases hQ : Q (a, b)
      · simp only [List.filter, hQ]
        rw [mapGet_cons_ne _ _ _ hk, mapGet_cons_ne _ _ _ hk]
        exact ih
      · simp only [List.filter, hQ, Bool.false_eq_true, if_false]
        rw [mapGet_cons_ne _ _ _ hk]
        exact ih

/-- A filter dropping every binding of key `k` makes `mapGet _ k` return none. -/
theorem mapGet_filter_drop {K V : Type} [DecidableEq K]
    (m : List (K × V)) (Q : K × V → Bool) (k : K)
    (hdrop : ∀ v, Q (k, v) = false) : mapGet (m.filter Q) k = none := by
  induction m with
  | nil => rfl
  | cons p m ih =>
    obtain ⟨a, b⟩ := p
    by_cases hk : a = k
    · subst hk
      simp only [List.filter, hdrop b, Bool.false_eq_true, if_false]
      exact ih
    · by_cases hQ : Q (a, b)
      · simp only [List.filter, hQ]
        rw [mapGet_cons_ne _ _ _ hk]
        exact ih
      · simp only [List.filter, hQ, Bool.false_eq_true, if_false]
        exact ih

theorem mapGet_insert_self {K V : Type} [DecidableEq K]
    (m : List (K × V)) (k : K) (v : V) : mapGet (mapInsert m k v) k = some v := by
  simp [mapGet, mapInsert, List.find?]

theorem mapGet_insert_ne {K V : Type} [DecidableEq K]
    (m : List (K × V)) (k k' : K) (v : V) (h : k' ≠ k) :
    mapGet (mapInsert m k v) k' = mapGet m k' := by
  unfold mapInsert
  rw [mapGet_cons_ne _ _ _ (by simpa using fun hk => h hk.symm)]
  exact mapGet_filter_keep m _ k' fun v => by
    simp only [decide_eq_true_eq]
    exact h

theorem mapGet_remove_self {K V : Type} [DecidableEq K]
    (m : List (K × V)) (k : K) : mapGet (mapRemove m k) k = none := by
  unfold mapRemove
  exact mapGet_filter_drop m _ k fun v => decide_eq_false (not_not_intro rfl)

theorem mapGet_remove_ne {K V : Type} [DecidableEq K]
    (m : List (K × V)) (k k' : K) (h : k' ≠ k) :
    mapGet (mapRemove m k) k' = mapGet m k' := by
  unfold mapRemove
  exact mapGet_filter_keep m _ k' fun v => by
    simp only [decide_eq_true_eq]
    exact h

/-- A successful lookup comes from a binding present in the list. -/
theorem mapGet_eq_some_mem {K V : Type} [DecidableEq K]
    {m : List (K × V)} {k : K} {v : V} (h : mapGet m k = some v) :
    (k, v) ∈ m := by
  unfold mapGet at h
  cases hf : m.find? (fun p => p.1 = k) with
  | none => rw [hf] at h; simp at h
  | some p =>
    rw [hf] at h
    simp only [Option.map] at h
    have hmem := List.mem_of_find?_eq_some hf
    have hkey : p.1 = k := by
      have := List.find?_some hf
      simpa using this
    have : p = (k, v) := by
      cases p with
      | mk a b => simp only [Prod.mk.injEq] at h ⊢; exact ⟨hkey ▸ rfl, by injection h⟩
    exact this ▸ hmem

namespace Lottery

/-- Status of a lottery round (`RoundStatus` in `lottery-rounds/src/state.rs`). -/
inductive RoundStatus : Type
  | Active
  | Closed
  | Complete
deriving DecidableEq, Repr

/-- Winner pool identifier (`WinnerPool`). -/
inductive WinnerPool : Type
  | Pool1
  | Pool2
  | Pool3
  | Pool4
  | Complete
deriving DecidableEq, Repr

/-- `calculate_prize_for_pool`: the tier's share of the prize pool.
The Rust multiplication `prize_u128 * percentage` is plain `u128` arithmetic
and therefore wraps modulo 2^128 before the division by 100. -/
def calculate_prize_for_pool (prize_pool : Nat) (pool : WinnerPool) : Nat :=
  let percentage : Nat :=
    match pool with
    | .Pool1 => 20
    | .Pool2 => 25
    | .Pool3 => 30
    | .Pool4 => 25
    | .Complete => 0
  ((prize_pool * percentage) % U128) / 100

/-- `calculate_prize_per_winner`: the tier share divided among the tier's
winners.  The division happens on `BigUint` (unbounded) and the result is
converted back with `to_u128().unwrap_or(u128::MAX)`. -/
def calculate_prize_per_winner (prize_pool : Nat) (pool : WinnerPool)
    (winners_in_pool : Nat) : Nat :=
  if winners_in_pool = 0 then 0
  else
    let pool_prize := calculate_prize_for_pool prize_pool pool
    let q := pool_prize / winners_in_pool
    if q ≤ U128 - 1 then q else U128 - 1

/-- A lottery round (`LotteryRound`). -/
structure LotteryRound : Type where
  id : Nat
  created_at : Nat
  closed_at : Option Nat
  status : RoundStatus
  ticket_price : Nat
  total_tickets_sold : Nat
  next_ticket_number : Nat
  prize_pool : Nat
  current_winner_pool : WinnerPool
  pool1_count : Nat
  pool2_count : Nat
  pool3_count : Nat
  pool4_count : Nat
  pool1_winners_drawn : Nat
  pool2_winners_drawn : Nat
  pool3_winners_drawn : Nat
  pool4_winners_drawn : Nat
deriving DecidableEq, Repr

/-- A user's ticket purchase (`TicketPurchase`). -/
structure TicketPurchase : Type where
  owner : Nat
  first_ticket : Nat
  last_ticket : Nat
  total_tickets : Nat
  amount_paid : Nat
  source_chain_id : Option Nat
deriving DecidableEq, Repr

/-- Value stored under a winning ticket:
`(owner, prize_amount, claimed, source_chain_id)`. -/
structure WinInfo : Type where
  owner : Nat
  prize : Nat
  claimed : Bool
  source_chain_id : Option Nat
deriving DecidableEq, Repr

/-- The application state (`LotteryRoundsState`), plus a ghost event log
`winner_log` recording every winner selection `(round_id, ticket_number)` in
order, used only to state the no-double-win history property. -/
structure State : Type where
  round_counter : Nat
  rounds : List (Nat × LotteryRound)
  active_round : Option Nat
  ticket_purchases : List ((Nat × Nat) × TicketPurchase)
  ticket_to_owner : List ((Nat × Nat) × Nat)
  winning_tickets : List ((Nat × Nat) × WinInfo)
  winner_log : List (Nat × Nat)
deriving DecidableEq, Repr

/-- The freshly instantiated application state. -/
def initState : State :=
  { round_counter := 0
    rounds := []
    active_round := none
    ticket_purchases := []
    ticket_to_owner := []
    winning_tickets := []
    winner_log := [] }

/-- `MAX_HISTORY_ROUNDS`. -/
def MAX_HISTORY_ROUNDS : Nat := 5

/-- `cleanup_old_round`: drop the ticket index entries and winning-ticket
entries numbered `1..=total_tickets_sold` of the given round, then drop the
round itself.  (The Rust removal loops are modelled as single filters with
the same effect; ticket purchases are not removed, as the comment in the
source explains.) -/
def cleanup_old_round (s : State) (round_id : Nat) : State :=
  match mapGet s.rounds round_id with
  | some round =>
      let n := round.total_tickets_sold
      { s with
        ticket_to_owner := s.ticket_to_owner.filter
          fun p => ¬ (p.1.1 = round_id ∧ 1 ≤ p.1.2 ∧ p.1.2 ≤ n)
        winning_tickets := s.winning_tickets.filter
          fun p => ¬ (p.1.1 = round_id ∧ 1 ≤ p.1.2 ∧ p.1.2 ≤ n)
        rounds := mapRemove s.rounds round_id }
  | none => { s with rounds := mapRemove s.rounds round_id }

/-- `create_lottery_round`.  Always succeeds; returns the new round id. -/
def create_lottery_round (s : State) (ticket_price timestamp : Nat) :
    State × Nat :=
  let round_id := s.round_counter + 1
  let s1 : State := { s with round_counter := round_id }
  let s2 : State :=
    if round_id > MAX_HISTORY_ROUNDS then
      cleanup_old_round s1 (round_id - MAX_HISTORY_ROUNDS)
    else s1
  let round : LotteryRound :=
    { id := round_id
      created_at := timestamp
      closed_at := none
      status := .Active
      ticket_price := ticket_price
      total_tickets_sold := 0
      next_ticket_number := 1
      prize_pool := 0
      current_winner_pool := .Pool1
      pool1_count := 0
      pool2_count := 0
      pool3_count := 0
      pool4_count := 0
      pool1_winners_drawn := 0
      pool2_winners_drawn := 0
      pool3_winners_drawn := 0
      pool4_winners_drawn := 0 }
  ({ s2 with
      rounds := mapInsert s2.rounds round_id round
      active_round := some round_id },
   round_id)

/-- `purchase_tickets`.  The `ticket_price` argument is accepted but ignored
in favour of the round's stored price, exactly as in the source. -/
def purchase_tickets (s : State) (owner amount ticket_price : Nat)
    (source_chain_id : Option Nat) : Except String (State × TicketPurchase) :=
  match s.active_round with
  | none => .error "No active round"
  | some round_id =>
    match mapGet s.rounds round_id with
    | none => .error "Active round not found"
    | some round =>
      if round.status ≠ RoundStatus.Active then
        .error "No active round accepting ticket purchases"
      else
        let _ := ticket_price
        let actual_ticket_price := round.ticket_price
        if actual_ticket_price = 0 then
          .error "Invalid ticket price in round"
        else
          let ticket_count := amount / actual_ticket_price
          if ticket_count = 0 then
            .error "Amount too small to purchase any tickets"
          else
            -- `ticket_count as u64` truncates.
            let ticket_count_u64 := wrap64 ticket_count
            let first_ticket := round.next_ticket_number
            -- `first + count - 1` in u64: evaluated left to right, wrapping.
            let last_ticket :=
              wrap64 (wrap64 (first_ticket + ticket_count_u64) + (U64 - 1))
            let purchase : TicketPurchase :=
              { owner := owner
                first_ticket := first_ticket
                last_ticket := last_ticket
                total_tickets := ticket_count_u64
                amount_paid := amount
                source_chain_id := source_chain_id }
            let tto :=
              (List.range' first_ticket (last_ticket + 1 - first_ticket)).foldl
                (fun m t => mapInsert m (round_id, t) owner) s.ticket_to_owner
            let round1 : LotteryRound :=
              { round with
                  next_ticket_number := wrap64 (last_ticket + 1)
                  total_tickets_sold :=
                    wrap64 (round.total_tickets_sold + ticket_count_u64)
                  prize_pool := satAdd128 round.prize_pool amount }
            .ok
              ({ s with
                  ticket_purchases :=
                    mapInsert s.ticket_purchases (round_id, owner) purchase
                  ticket_to_owner := tto
                  rounds := mapInsert s.rounds round_id round1 },
               purchase)

/-- `close_lottery_round`: freeze the active round, compute the four tier
quotas (u64 multiplications wrap), and mark it Closed. -/
def close_lottery_round (s : State) (timestamp : Nat) :
    Except String (State × Nat) :=
  match s.active_round with
  | none => .error "No active round to close"
  | some round_id =>
    match mapGet s.rounds round_id with
    | none => .error "Active round not found"
    | some round =>
      if round.status ≠ RoundStatus.Active then
        .error "Round is not active"
      else if round.total_tickets_sold < 4 then
        .error "Cannot close round with fewer than 4 tickets sold"
      else
        let total_tickets := round.total_tickets_sold
        let p1 := wrap64 (total_tickets * 15) / 100
        let p2 := wrap64 (total_tickets * 7) / 100
        let p3 := wrap64 (total_tickets * 5) / 100
        let p4 := wrap64 (total_tickets * 3) / 100
        let p1 := if p1 = 0 ∧ total_tickets > 0 then 1 else p1
        let p2 := if p2 = 0 ∧ total_tickets > 1 then 1 else p2
        let p3 := if p3 = 0 ∧ total_tickets > 2 then 1 else p3
        let p4 := if p4 = 0 ∧ total_tickets > 3 then 1 else p4
        let round1 : LotteryRound :=
          { round with
              pool1_count := p1
              pool2_count := p2
              pool3_count := p3
              pool4_count := p4
              status := .Closed
              closed_at := some timestamp
              current_winner_pool := .Pool1 }
        .ok
          ({ s with
              rounds := mapInsert s.rounds round_id round1
              active_round := none },
           round_id)

/-- One candidate of the selection loop in `generate_winner`:
`vrf_value.wrapping_add(attempts) % total_tickets_sold + 1`. -/
def drawCandidate (seed n attempt : Nat) : Nat :=
  wrap64 (seed + attempt) % n + 1

/-- The selection loop of `generate_winner`, with the remaining attempt budget
as fuel: starting at attempt `a`, try `fuel` candidates and return the first
one that is not among the already-drawn winners `w`. -/
def searchTicket (seed n : Nat) (w : List Nat) (a fuel : Nat) : Option Nat :=
  match fuel with
  | 0 => none
  | fuel + 1 =>
    let t := drawCandidate seed n a
    if t ∈ w then searchTicket seed n w (a + 1) fuel else some t

/-- The ticket numbers already recorded as winners of `round_id`
(`winning_tickets.indices()` filtered to the round). -/
def winnersOf (s : State) (round_id : Nat) : List Nat :=
  (mapKeys s.winning_tickets).filterMap
    fun k => if k.1 = round_id then some k.2 else none

/-- Result of `generate_winner`:
`(round_id, ticket_number, owner, prize_amount, new_round_created, source_chain_id)`. -/
structure DrawResult : Type where
  round_id : Nat
  ticket_number : Nat
  owner : Nat
  prize_amount : Nat
  new_round_created : Bool
  source_chain_id : Option Nat
deriving DecidableEq, Repr

/-- `generate_winner`: select one not-yet-winning ticket of a closed round,
record it with its prize, advance the tier bookkeeping, and — when the last
tier completes — mark the round Complete and auto-create the next round. -/
def generate_winner (s : State) (vrf_value round_id current_timestamp
    default_ticket_price : Nat) : Except String (State × DrawResult) :=
  match mapGet s.rounds round_id with
  | none => .error "Round not found"
  | some round =>
    if round.status ≠ RoundStatus.Closed then
      .error "Round is not closed"
    else
      let info : Option (WinnerPool × Nat × Nat) :=
        match round.current_winner_pool with
        | .Pool1 => some (.Pool1, round.pool1_count, round.pool1_winners_drawn)
        | .Pool2 => some (.Pool2, round.pool2_count, round.pool2_winners_drawn)
        | .Pool3 => some (.Pool3, round.pool3_count, round.pool3_winners_drawn)
        | .Pool4 => some (.Pool4, round.pool4_count, round.pool4_winners_drawn)
        | .Complete => none
      match info with
      | none => .error "All winners already drawn"
      | some (pool, winners_count, winners_drawn) =>
        if winners_drawn ≥ winners_count then
          .error "Current pool complete, should not happen"
        else
          let existing_winners := winnersOf s round_id
          -- `round.total_tickets_sold * 2` is a u64 multiplication.
          let max_attempts := wrap64 (round.total_tickets_sold * 2)
          match searchTicket vrf_value round.total_tickets_sold
              existing_winners 0 max_attempts with
          | none => .error "Failed to find unique winning ticket after many attempts"
          | some selected_ticket =>
            match mapGet s.ticket_to_owner (round_id, selected_ticket) with
            | none => .error "Ticket has no owner"
            | some owner =>
              let source_chain_id :=
                (mapGet s.ticket_purchases (round_id, owner)).bind
                  fun purchase => purchase.source_chain_id
              let prize_amount :=
                calculate_prize_per_winner round.prize_pool pool winners_count
              let s1 : State :=
                { s with
                    winning_tickets :=
                      mapInsert s.winning_tickets (round_id, selected_ticket)
                        { owner := owner
                          prize := prize_amount
                          claimed := false
                          source_chain_id := source_chain_id }
                    winner_log := s.winner_log ++ [(round_id, selected_ticket)] }
              let round1 : LotteryRound :=
                match pool with
                | .Pool1 => { round with pool1_winners_drawn := round.pool1_winners_drawn + 1 }
                | .Pool2 => { round with pool2_winners_drawn := round.pool2_winners_drawn + 1 }
                | .Pool3 => { round with pool3_winners_drawn := round.pool3_winners_drawn + 1 }
                | .Pool4 => { round with pool4_winners_drawn := round.pool4_winners_drawn + 1 }
                | .Complete => round
              let current_pool_complete : Bool :=
                match pool with
                | .Pool1 => round1.pool1_winners_drawn ≥ round1.pool1_count
                | .Pool2 => round1.pool2_winners_drawn ≥ round1.pool2_count
                | .Pool3 => round1.pool3_winners_drawn ≥ round1.pool3_count
                | .Pool4 => round1.pool4_winners_drawn ≥ round1.pool4_count
                | .Complete => false
              let round2 : LotteryRound :=
                if current_pool_complete then
                  let next_pool : WinnerPool :=
                    match pool with
                    | .Pool1 => .Pool2
                    | .Pool2 => .Pool3
                    | .Pool3 => .Pool4
                    | .Pool4 => .Complete
                    | .Complete => .Complete
                  if next_pool = WinnerPool.Complete then
                    { round1 with status := .Complete, current_winner_pool := .Complete }
                  else
                    { round1 with current_winner_pool := next_pool }
                else round1
              let new_round_created :=
                round2.current_winner_pool = WinnerPool.Complete
              let s2 : State :=
                if new_round_created then
                  (create_lottery_round s1 default_ticket_price
                    current_timestamp).1
                else s1
              let s3 : State :=
                { s2 with rounds := mapInsert s2.rounds round_id round2 }
              .ok
                (s3,
                 { round_id := round_id
                   ticket_number := selected_ticket
                   owner := owner
                   prize_amount := prize_amount
                   new_round_created := new_round_created
                   source_chain_id := source_chain_id })

/-- `mark_prize_claimed`. -/
def mark_prize_claimed (s : State) (round_id ticket_number : Nat) :
    Except String State :=
  match mapGet s.winning_tickets (round_id, ticket_number) with
  | none => .error "Winning ticket not found"
  | some info =>
    .ok { s with
            winning_tickets :=
              mapInsert s.winning_tickets (round_id, ticket_number)
                { info with claimed := true } }

/-- The state-mutating operations of the lottery-rounds contract. -/
inductive Op : Type
  | create (ticket_price timestamp : Nat)
  | purchase (owner amount ticket_price : Nat) (source_chain_id : Option Nat)
  | close (timestamp : Nat)
  | draw (vrf_value round_id timestamp default_ticket_price : Nat)
  | markClaimed (round_id ticket_number : Nat)

/-- One contract transaction: a failing operation panics and leaves the
committed state unchanged. -/
def step (s : State) (op : Op) : State :=
  match op with
  | .create p ts => (create_lottery_round s p ts).1
  | .purchase o a p src =>
    match purchase_tickets s o a p src with
    | .ok (s1, _) => s1
    | .error _ => s
  | .close ts =>
    match close_lottery_round s ts with
    | .ok (s1, _) => s1
    | .error _ => s
  | .draw v rid ts dp =>
    match generate_winner s v rid ts dp with
    | .ok (s1, _) => s1
    | .error _ => s
  | .markClaimed rid t =>
    match mark_prize_claimed s rid t with
    | .ok s1 => s1
    | .error _ => s

/-- The state reached by a sequence of transactions from instantiation. -/
def run (ops : List Op) : State := ops.foldl step initState

end Lottery

namespace Predict

/-- Status of a prediction round (`RoundStatus` in `rounds/src/state.rs`). -/
inductive RoundStatus : Type
  | Active
  | Closed
  | Resolved
deriving DecidableEq, Repr

/-- Prediction direction for the Up/Down game (`Prediction`). -/
inductive Direction : Type
  | Up
  | Down
deriving DecidableEq, Repr

/-- `calculate_winnings_proportional`: `(bet * total) / winner_pool` computed
on `BigUint`, converted back with `to_u128().unwrap_or(u128::MAX)`; zero when
the winner pool is empty. -/
def calculate_winnings_proportional (bet_amount winner_pool total_prize_pool :
    Nat) : Nat :=
  if winner_pool = 0 then 0
  else
    let w := bet_amount * total_prize_pool / winner_pool
    if w ≤ U128 - 1 then w else U128 - 1

/-- A prediction round (`PredictionRound`). -/
structure PredictionRound : Type where
  id : Nat
  created_at : Nat
  closed_at : Option Nat
  resolved_at : Option Nat
  status : RoundStatus
  closing_price : Option Nat
  resolution_price : Option Nat
  up_bets : Nat
  down_bets : Nat
  up_bets_pool : Nat
  down_bets_pool : Nat
  prize_pool : Nat
  result : Option Direction
deriving DecidableEq, Repr

/-- A user's bet (`PredictionBet`). -/
structure PredictionBet : Type where
  owner : Nat
  amount_up : Nat
  amount_down : Nat
  claimed : Bool
  source_chain_id : Option Nat
deriving DecidableEq, Repr

/-- The application state (`RoundsState`), plus a ghost event log
`assignment_log` recording, in order, one `(round_id, owner)` entry per
outcome row produced by round resolution. -/
structure State : Type where
  round_counter : Nat
  rounds : List (Nat × PredictionRound)
  active_round : Option Nat
  active_bets : List (Nat × PredictionBet)
  closed_bets : List ((Nat × Nat) × PredictionBet)
  resolved_bets : List ((Nat × Nat) × PredictionBet)
  assignment_log : List (Nat × Nat)
deriving DecidableEq, Repr

/-- The freshly instantiated application state. -/
def initState : State :=
  { round_counter := 0
    rounds := []
    active_round := none
    active_bets := []
    closed_bets := []
    resolved_bets := []
    assignment_log := [] }

/-- A fresh Active round with the given id and creation timestamp. -/
def freshRound (round_id timestamp : Nat) : PredictionRound :=
  { id := round_id
    created_at := timestamp
    closed_at := none
    resolved_at := none
    status := .Active
    closing_price := none
    resolution_price := none
    up_bets := 0
    down_bets := 0
    up_bets_pool := 0
    down_bets_pool := 0
    prize_pool := 0
    result := none }

/-- `create_round`.  The trailing loop removes every active bet, leaving the
active-bet map empty. -/
def create_round (s : State) (timestamp : Nat) : State × Nat :=
  let round_id := s.round_counter + 1
  ({ s with
      round_counter := round_id
      rounds := mapInsert s.rounds round_id (freshRound round_id timestamp)
      active_round := some round_id
      active_bets := [] },
   round_id)

/-- The aggregate statistics accumulated over the active bets in
`close_round`: up count, down count, up pool, down pool, prize pool. -/
structure CloseStats : Type where
  up_bets : Nat
  down_bets : Nat
  up_bets_pool : Nat
  down_bets_pool : Nat
  prize_pool : Nat

/-- The single pass over the active bets in `close_round`. -/
def closeStats (bets : List (Nat × PredictionBet)) : CloseStats :=
  bets.foldl
    (fun acc p =>
      let acc :=
        if p.2.amount_up ≠ 0 then
          { acc with
              up_bets := acc.up_bets + 1
              up_bets_pool := satAdd128 acc.up_bets_pool p.2.amount_up
              prize_pool := satAdd128 acc.prize_pool p.2.amount_up }
        else acc
      if p.2.amount_down ≠ 0 then
        { acc with
            down_bets := acc.down_bets + 1
            down_bets_pool := satAdd128 acc.down_bets_pool p.2.amount_down
            prize_pool := satAdd128 acc.prize_pool p.2.amount_down }
      else acc)
    { up_bets := 0, down_bets := 0, up_bets_pool := 0, down_bets_pool := 0
      prize_pool := 0 }

/-- `close_round`: freeze the active round's aggregates, move the active bets
to the closed-bet map, and immediately create the successor Active round.
Returns the new round's id, as the source does. -/
def close_round (s : State) (closing_price timestamp : Nat) :
    Except String (State × Nat) :=
  match s.active_round with
  | none => .error "No active round to close"
  | some round_id =>
    match mapGet s.rounds round_id with
    | none => .error "Active round not found"
    | some round =>
      if round.status ≠ RoundStatus.Active then
        .error "Round is not active"
      else
        let stats := closeStats s.active_bets
        let round1 : PredictionRound :=
          { round with
              up_bets := stats.up_bets
              down_bets := stats.down_bets
              up_bets_pool := stats.up_bets_pool
              down_bets_pool := stats.down_bets_pool
              prize_pool := stats.prize_pool
              status := .Closed
              closed_at := some timestamp
              closing_price := some closing_price }
        let s1 : State :=
          { s with
              rounds := mapInsert s.rounds round_id round1
              active_round := none }
        -- move each active bet to the closed-bet map under (round_id, owner)
        let s2 : State :=
          { s1 with
              closed_bets :=
                s.active_bets.foldl
                  (fun m p => mapInsert m (round_id, p.1) p.2) s1.closed_bets
              active_bets := [] }
        -- automatically create a new round after closing the current one
        let new_round_id := s2.round_counter + 1
        let s3 : State :=
          { s2 with
              round_counter := new_round_id
              rounds := mapInsert s2.rounds new_round_id
                (freshRound new_round_id timestamp)
              active_round := some new_round_id
              active_bets := [] }
        .ok (s3, new_round_id)

/-- One outcome row returned by `resolve_round_and_distribute_rewards`:
`(owner, bet_amount, winnings, is_win, source_chain_id)`. -/
structure RewardRow : Type where
  owner : Nat
  bet_amount : Nat
  winnings : Nat
  is_win : Bool
  source_chain_id : Option Nat
deriving DecidableEq, Repr

/-- The per-bet outcome row built in the results loop of
`resolve_round_and_distribute_rewards`. -/
def rewardRow (result : Option Direction) (winner_pool total_prize_pool : Nat)
    (bet : PredictionBet) : RewardRow :=
  let winnings_up :=
    if winner_pool ≠ 0 ∧ result = some Direction.Up ∧ bet.amount_up ≠ 0 then
      calculate_winnings_proportional bet.amount_up winner_pool total_prize_pool
    else 0
  let winnings_down :=
    if winner_pool ≠ 0 ∧ result = some Direction.Down ∧ bet.amount_down ≠ 0 then
      calculate_winnings_proportional bet.amount_down winner_pool total_prize_pool
    else 0
  let total_wagered := satAdd128 bet.amount_up bet.amount_down
  let total_winnings := satAdd128 winnings_up winnings_down
  let is_win := total_winnings > total_wagered
  { owner := bet.owner
    bet_amount := total_wagered
    winnings := total_winnings
    is_win := is_win
    source_chain_id := bet.source_chain_id }

/-- `resolve_round_and_distribute_rewards`: decide the outcome by price
comparison, mark the round Resolved, move its closed bets to the resolved-bet
map and return one outcome row per bet. -/
def resolve_round_and_distribute_rewards (s : State)
    (round_id resolution_price timestamp : Nat) :
    Except String (State × List RewardRow) :=
  match mapGet s.rounds round_id with
  | none => .error "Round not found"
  | some round =>
    if round.status ≠ RoundStatus.Closed then
      .error "Round is not closed"
    else
      match round.closing_price with
      | none => .error "Round has no closing price"
      | some closing_price =>
        let result : Option Direction :=
          if resolution_price > closing_price then some .Up
          else if resolution_price < closing_price then some .Down
          else none
        let round1 : PredictionRound :=
          { round with
              result := result
              status := .Resolved
              resolved_at := some timestamp
              resolution_price := some resolution_price }
        let bets_to_move :=
          s.closed_bets.filter fun p => p.1.1 = round_id
        let s1 : State :=
          { s with
              rounds := mapInsert s.rounds round_id round1
              resolved_bets :=
                bets_to_move.foldl
                  (fun m p => mapInsert m p.1 p.2) s.resolved_bets
              closed_bets :=
                bets_to_move.foldl
                  (fun m p => mapRemove m p.1) s.closed_bets }
        let total_prize_pool := round1.prize_pool
        let winner_pool :=
          match result with
          | some .Up => round1.up_bets_pool
          | some .Down => round1.down_bets_pool
          | none => 0
        let results :=
          bets_to_move.map fun p =>
            rewardRow result winner_pool total_prize_pool p.2
        let s2 : State :=
          { s1 with
              assignment_log :=
                s1.assignment_log ++ results.map fun row => (round_id, row.owner) }
        .ok (s2, results)

/-- `place_bet`. -/
def place_bet (s : State) (owner amount : Nat) (prediction : Direction)
    (source_chain_id : Option Nat) : Except String State :=
  match s.active_round with
  | none => .error "No active round"
  | some round_id =>
    match mapGet s.rounds round_id with
    | none => .error "Active round not found"
    | some round =>
      if round.status ≠ RoundStatus.Active then
        .error "No active round accepting bets"
      else
        let betAndRound : PredictionBet × PredictionRound :=
          match mapGet s.active_bets owner with
          | some old_bet =>
            match prediction with
            | .Up =>
              (( { old_bet with
                    amount_up := satAdd128 old_bet.amount_up amount } ),
               if old_bet.amount_up = 0 then
                 { round with up_bets := round.up_bets + 1 }
               else round)
            | .Down =>
              (( { old_bet with
                    amount_down := satAdd128 old_bet.amount_down amount } ),
               if old_bet.amount_down = 0 then
                 { round with down_bets := round.down_bets + 1 }
               else round)
          | none =>
            match prediction with
            | .Up =>
              ({ owner := owner, amount_up := amount, amount_down := 0
                 claimed := false, source_chain_id := source_chain_id },
               { round with up_bets := round.up_bets + 1 })
            | .Down =>
              ({ owner := owner, amount_up := 0, amount_down := amount
                 claimed := false, source_chain_id := source_chain_id },
               { round with down_bets := round.down_bets + 1 })
        let bet := betAndRound.1
        let round1 := betAndRound.2
        let round2 : PredictionRound :=
          match prediction with
          | .Up =>
            { round1 with
                up_bets_pool := satAdd128 round1.up_bets_pool amount
                prize_pool := satAdd128 round1.prize_pool amount }
          | .Down =>
            { round1 with
                down_bets_pool := satAdd128 round1.down_bets_pool amount
                prize_pool := satAdd128 round1.prize_pool amount }
        .ok
          { s with
              active_bets := mapInsert s.active_bets owner bet
              rounds := mapInsert s.rounds round_id round2 }

/-- `get_round_winners`: query the winners of a resolved round. -/
def get_round_winners (s : State) (round_id : Nat) :
    Except String (List (Nat × Nat × Nat × Option Nat)) :=
  match mapGet s.rounds round_id with
  | none => .error "Round not found"
  | some round =>
    if round.status ≠ RoundStatus.Resolved then
      .error "Round is not resolved"
    else
      match round.result with
      | none => .error "Round has no result"
      | some result =>
        let total_prize_pool := round.prize_pool
        let winner_pool :=
          match result with
          | .Up => round.up_bets_pool
          | .Down => round.down_bets_pool
        if winner_pool = 0 then .ok []
        else
          let round_bet_indices :=
            (mapKeys s.resolved_bets).filter fun k => k.1 = round_id
          let winners :=
            round_bet_indices.foldl
              (fun acc k =>
                match mapGet s.resolved_bets k with
                | none => acc
                | some bet =>
                  if bet.claimed then acc
                  else
                    let amounts : Nat × Nat :=
                      match result with
                      | .Up =>
                        if bet.amount_up ≠ 0 then
                          (bet.amount_up,
                           calculate_winnings_proportional bet.amount_up
                             winner_pool total_prize_pool)
                        else (0, 0)
                      | .Down =>
                        if bet.amount_down ≠ 0 then
                          (bet.amount_down,
                           calculate_winnings_proportional bet.amount_down
                             winner_pool total_prize_pool)
                        else (0, 0)
                    if amounts.2 ≠ 0 then
                      acc ++ [(k.2, amounts.1, amounts.2, bet.source_chain_id)]
                    else acc)
              []
          .ok winners

/-- The state-mutating operations of the rounds contract.  `ClaimWinnings`
always panics in the source and is therefore omitted (no state change). -/
inductive Op : Type
  | create (timestamp : Nat)
  | close (closing_price timestamp : Nat)
  | resolve (round_id resolution_price timestamp : Nat)
  | bet (owner amount : Nat) (prediction : Direction)
      (source_chain_id : Option Nat)

/-- One contract transaction: a failing operation panics and leaves the
committed state unchanged. -/
def step (s : State) (op : Op) : State :=
  match op with
  | .create ts => (create_round s ts).1
  | .close cp ts =>
    match close_round s cp ts with
    | .ok (s1, _) => s1
    | .error _ => s
  | .resolve rid rp ts =>
    match resolve_round_and_distribute_rewards s rid rp ts with
    | .ok (s1, _) => s1
    | .error _ => s
  | .bet o a pr src =>
    match place_bet s o a pr src with
    | .ok s1 => s1
    | .error _ => s

/-- The state reached by a sequence of transactions from instantiation. -/
def run (ops : List Op) : State := ops.foldl step initState

end Predict

namespace Lottery

/-- Total amount actually disbursed by a closed lottery round with prize pool
`p` and tier quotas `q1..q4`: each tier pays its per-winner prize to its full
quota of winners. -/
def lotteryDisbursed (p q1 q2 q3 q4 : Nat) : Nat :=
  q1 * calculate_prize_per_winner p .Pool1 q1 +
  q2 * calculate_prize_per_winner p .Pool2 q2 +
  q3 * calculate_prize_per_winner p .Pool3 q3 +
  q4 * calculate_prize_per_winner p .Pool4 q4

/-- The tier share is strictly below 2^128 (it is a `u128`). -/
theorem calculate_prize_for_pool_lt (p : Nat) (pool : WinnerPool) :
    calculate_prize_for_pool p pool < U128 := by
  unfold calculate_prize_for_pool
  have hU : 0 < U128 := by unfold U128; positivity
  cases pool <;>
    exact lt_of_le_of_lt (Nat.div_le_self _ _) (Nat.mod_lt _ hU)

/-- What one tier disburses plus its division remainder is exactly its share. -/
theorem per_winner_mul_add_mod (p : Nat) (pool : WinnerPool) (q : Nat) :
    q * calculate_prize_per_winner p pool q +
      calculate_prize_for_pool p pool % q = calculate_prize_for_pool p pool := by
  unfold calculate_prize_per_winner
  by_cases hq : q = 0
  · subst hq
    simp [Nat.mod_zero]
  · simp only [hq, if_false]
    have hlt : calculate_prize_for_pool p pool / q ≤ U128 - 1 := by
      have := calculate_prize_for_pool_lt p pool
      have hle := Nat.div_le_self (calculate_prize_for_pool p pool) q
      omega
    rw [if_pos hlt]
    exact Nat.div_add_mod _ _

/-- The four tier shares together never exceed the pool. -/
theorem shares_le_pool (p : Nat) :
    calculate_prize_for_pool p .Pool1 + calculate_prize_for_pool p .Pool2 +
      calculate_prize_for_pool p .Pool3 + calculate_prize_for_pool p .Pool4
      ≤ p := by
  unfold calculate_prize_for_pool
  simp only
  have h1 : (p * 20) % U128 ≤ p * 20 := Nat.mod_le _ _
  have h2 : (p * 25) % U128 ≤ p * 25 := Nat.mod_le _ _
  have h3 : (p * 30) % U128 ≤ p * 30 := Nat.mod_le _ _
  have e1 : ((p * 20) % U128) / 100 * 100 ≤ (p * 20) % U128 :=
    Nat.div_mul_le_self _ _
  have e2 : ((p * 25) % U128) / 100 * 100 ≤ (p * 25) % U128 :=
    Nat.div_mul_le_self _ _
  have e3 : ((p * 30) % U128) / 100 * 100 ≤ (p * 30) % U128 :=
    Nat.div_mul_le_self _ _
  omega

/-- C2 counterexample.  For prize pool 1001 with one winner per tier, every
per-tier division remainder is zero (dividing by quota 1), yet one unit of
the pool is not disbursed: it was lost when the four percentage shares were
truncated, so the shortfall does not equal the sum of the per-tier division
remainders. -/
theorem C2_counterexample :
    lotteryDisbursed 1001 1 1 1 1 = 1000 ∧
    1001 - lotteryDisbursed 1001 1 1 1 1 = 1 ∧
    calculate_prize_for_pool 1001 .Pool1 % 1 +
      calculate_prize_for_pool 1001 .Pool2 % 1 +
      calculate_prize_for_pool 1001 .Pool3 % 1 +
      calculate_prize_for_pool 1001 .Pool4 % 1 = 0 ∧
    (1 : Nat) ≠ 0 := by
  refine ⟨by decide, by decide, by decide, by decide⟩

/-- C2 (amended).  For every pool `p` and tier quotas, the total disbursed is
at most `p`, and the shortfall equals the sum of the per-tier division
remainders plus the part of the pool not covered by the four truncated
percentage shares. -/
theorem C2_conservation (p q1 q2 q3 q4 : Nat) :
    lotteryDisbursed p q1 q2 q3 q4 ≤ p ∧
    p - lotteryDisbursed p q1 q2 q3 q4 =
      (calculate_prize_for_pool p .Pool1 % q1 +
       calculate_prize_for_pool p .Pool2 % q2 +
       calculate_prize_for_pool p .Pool3 % q3 +
       calculate_prize_for_pool p .Pool4 % q4) +
      (p -
        (calculate_prize_for_pool p .Pool1 + calculate_prize_for_pool p .Pool2 +
         calculate_prize_for_pool p .Pool3 + calculate_prize_for_pool p .Pool4)) := by
  have h1 := per_winner_mul_add_mod p .Pool1 q1
  have h2 := per_winner_mul_add_mod p .Pool2 q2
  have h3 := per_winner_mul_add_mod p .Pool3 q3
  have h4 := per_winner_mul_add_mod p .Pool4 q4
  have hs := shares_le_pool p
  unfold lotteryDisbursed
  omega

/-- C9 counterexample.  At the representable pool 2^127 attos the `u128`
multiplication `pool * 20` wraps to zero, so the tier-1 share computed by the
code is 0, not `floor(pool * 20 / 100)`: the tier-share multiplication is
fixed-width, contradicting the claimed fully unbounded-precision arithmetic. -/
theorem C9_counterexample :
    calculate_prize_for_pool (2 ^ 127) .Pool1 = 0 ∧
    2 ^ 127 * 20 / 100 = 34028236692093846346337460743176821145 ∧
    calculate_prize_for_pool (2 ^ 127) .Pool1 ≠ 2 ^ 127 * 20 / 100 := by
  refine ⟨by decide, by decide, by decide⟩

/-- C9 (amended).  The tier share is `floor((pool * pct mod 2^128) / 100)`
with percentages 20, 25, 30, 25; whenever `pool * 30 < 2^128` — so no tier
multiplication overflows — it equals the claimed `floor(pool * pct / 100)`,
and the per-winner prize is the share integer-divided by the quota (computed
on unbounded integers); the spec example pool 1000, 20 %, 3 winners gives
share 200, 66 each and remainder 2. -/
theorem C9_exact_arithmetic (p q : Nat) (hp : p * 30 < U128) :
    (calculate_prize_for_pool p .Pool1 = p * 20 / 100 ∧
     calculate_prize_for_pool p .Pool2 = p * 25 / 100 ∧
     calculate_prize_for_pool p .Pool3 = p * 30 / 100 ∧
     calculate_prize_for_pool p .Pool4 = p * 25 / 100) ∧
    (q ≠ 0 → ∀ pool, calculate_prize_per_winner p pool q =
      calculate_prize_for_pool p pool / q) ∧
    (calculate_prize_for_pool 1000 .Pool1 = 200 ∧
     calculate_prize_per_winner 1000 .Pool1 3 = 66 ∧
     200 - 3 * 66 = 2) := by
  refine ⟨⟨?_, ?_, ?_, ?_⟩, ?_, by decide, by decide, by decide⟩
  · unfold calculate_prize_for_pool
    simp only
    rw [Nat.mod_eq_of_lt (by omega)]
  · unfold calculate_prize_for_pool
    simp only
    rw [Nat.mod_eq_of_lt (by omega)]
  · unfold calculate_prize_for_pool
    simp only
    rw [Nat.mod_eq_of_lt (by omega)]
  · unfold calculate_prize_for_pool
    simp only
    rw [Nat.mod_eq_of_lt (by omega)]
  · intro hq pool
    unfold calculate_prize_per_winner
    simp only [hq, if_false]
    have := calculate_prize_for_pool_lt p pool
    have hle := Nat.div_le_self (calculate_prize_for_pool p pool) q
    rw [if_pos (by omega)]

/-- C9 witness: the amended statement instantiated at pool 1000, quota 3. -/
theorem C9_exact_arithmetic_witness :
    (1000 : Nat) * 30 < U128 ∧
    ((calculate_prize_for_pool 1000 .Pool1 = 1000 * 20 / 100 ∧
      calculate_prize_for_pool 1000 .Pool2 = 1000 * 25 / 100 ∧
      calculate_prize_for_pool 1000 .Pool3 = 1000 * 30 / 100 ∧
      calculate_prize_for_pool 1000 .Pool4 = 1000 * 25 / 100) ∧
     ((3 : Nat) ≠ 0 → ∀ pool, calculate_prize_per_winner 1000 pool 3 =
       calculate_prize_for_pool 1000 pool / 3) ∧
     (calculate_prize_for_pool 1000 .Pool1 = 200 ∧
      calculate_prize_per_winner 1000 .Pool1 3 = 66 ∧
      200 - 3 * 66 = 2)) :=
  ⟨by decide, C9_exact_arithmetic 1000 3 (by decide)⟩

/-- Unfolding lemma for one loop iteration. -/
theorem searchTicket_succ (seed n : Nat) (w : List Nat) (a fuel : Nat) :
    searchTicket seed n w a (fuel + 1) =
      if drawCandidate seed n a ∈ w then searchTicket seed n w (a + 1) fuel
      else some (drawCandidate seed n a) := rfl

/-- The selection loop returns `some t` exactly when some candidate within the
fuel budget is not yet a winner, `t` being the candidate of the first such
attempt. -/
theorem searchTicket_some_iff (seed n : Nat) (w : List Nat) :
    ∀ fuel a t, searchTicket seed n w a fuel = some t ↔
      ∃ k, k < fuel ∧ drawCandidate seed n (a + k) ∉ w ∧
        (∀ j, j < k → drawCandidate seed n (a + j) ∈ w) ∧
        t = drawCandidate seed n (a + k) := by
  intro fuel
  induction fuel with
  | zero =>
    intro a t
    simp [searchTicket]
  | succ fuel ih =>
    intro a t
    by_cases hmem : drawCandidate seed n a ∈ w
    · rw [searchTicket_succ, if_pos hmem]
      rw [ih (a + 1) t]
      constructor
      · rintro ⟨k, hk, hnot, hall, ht⟩
        refine ⟨k + 1, by omega, ?_, ?_, ?_⟩
        · rw [show a + (k + 1) = a + 1 + k from by omega]
          exact hnot
        · intro j hj
          cases j with
          | zero => simpa using hmem
          | succ j =>
            rw [show a + (j + 1) = a + 1 + j from by omega]
            exact hall j (by omega)
        · rw [show a + (k + 1) = a + 1 + k from by omega]
          exact ht
      · rintro ⟨k, hk, hnot, hall, ht⟩
        cases k with
        | zero =>
          exact absurd (by simpa using hmem) (by simpa using hnot)
        | succ k =>
          refine ⟨k, by omega, ?_, ?_, ?_⟩
          · rw [show a + 1 + k = a + (k + 1) from by omega]
            exact hnot
          · intro j hj
            rw [show a + 1 + j = a + (j + 1) from by omega]
            exact hall (j + 1) (by omega)
          · rw [show a + 1 + k = a + (k + 1) from by omega]
            exact ht
    · rw [searchTicket_succ, if_neg hmem]
      constructor
      · intro h
        refine ⟨0, by omega, by simpa using hmem, by omega, ?_⟩
        simp only [Nat.add_zero]
        exact (Option.some.injEq _ _ ▸ h).symm
      · rintro ⟨k, hk, hnot, hall, ht⟩
        cases k with
        | zero =>
          simp only [Nat.add_zero] at ht
          exact congrArg some ht.symm
        | succ k =>
          exact absurd (by simpa using hall 0 (by omega)) hmem

/-- The selection loop fails exactly when every candidate within the fuel
budget is already a winner. -/
theorem searchTicket_none_iff (seed n : Nat) (w : List Nat) :
    ∀ fuel a, searchTicket seed n w a fuel = none ↔
      ∀ k, k < fuel → drawCandidate seed n (a + k) ∈ w := by
  intro fuel
  induction fuel with
  | zero =>
    intro a
    simp [searchTicket]
  | succ fuel ih =>
    intro a
    by_cases hmem : drawCandidate seed n a ∈ w
    · rw [searchTicket_succ, if_pos hmem]
      rw [ih (a + 1)]
      constructor
      · intro h k hk
        cases k with
        | zero => simpa using hmem
        | succ k =>
          rw [show a + (k + 1) = a + 1 + k from by omega]
          exact h k (by omega)
      · intro h k hk
        rw [show a + 1 + k = a + (k + 1) from by omega]
        exact h (k + 1) (by omega)
    · rw [searchTicket_succ, if_neg hmem]
      constructor
      · intro h
        exact absurd h (by simp)
      · intro h
        exact absurd (by simpa using h 0 (by omega)) hmem

/-- Modelled from the spec: the candidate formula
`((seed + attempt) mod total_tickets_sold) + 1` read with mathematically
exact addition, as the claim states it (the code instead wraps the sum to
64 bits first). -/
def specCandidate (seed n attempt : Nat) : Nat := (seed + attempt) % n + 1

/-- Modelled from the spec: the claim's selection procedure — try the
candidates of `specCandidate` for the given number of attempts and select the
first one that is not yet a winner. -/
def specSearchTicket (seed n : Nat) (w : List Nat) (a fuel : Nat) :
    Option Nat :=
  match fuel with
  | 0 => none
  | fuel + 1 =>
    let t := specCandidate seed n a
    if t ∈ w then specSearchTicket seed n w (a + 1) fuel else some t

/-- A concrete closed round for the C5 counterexample: 7 tickets sold, ticket
number 2 already drawn as a tier-1 winner, tier-1 quota 2 with 1 drawn. -/
def c5Round : LotteryRound :=
  { id := 1
    created_at := 0
    closed_at := some 0
    status := .Closed
    ticket_price := 1
    total_tickets_sold := 7
    next_ticket_number := 8
    prize_pool := 700
    current_winner_pool := .Pool1
    pool1_count := 2
    pool2_count := 1
    pool3_count := 1
    pool4_count := 1
    pool1_winners_drawn := 1
    pool2_winners_drawn := 0
    pool3_winners_drawn := 0
    pool4_winners_drawn := 0 }

/-- The C5 counterexample state. -/
def c5State : State :=
  { round_counter := 1
    rounds := [(1, c5Round)]
    active_round := none
    ticket_purchases := []
    ticket_to_owner :=
      [((1, 1), 5), ((1, 2), 5), ((1, 3), 5), ((1, 4), 5), ((1, 5), 5),
       ((1, 6), 5), ((1, 7), 5)]
    winning_tickets :=
      [((1, 2), { owner := 5, prize := 0, claimed := false,
                  source_chain_id := none })]
    winner_log := [(1, 2)] }

/-- C5 counterexample.  With seed 2^64 - 1, 7 tickets and ticket 2 already a
winner, the claim's formula (exact addition) selects ticket 3 at its first
valid attempt, but the draw call — whose loop wraps `seed + attempt` to 64
bits — selects ticket 1. -/
theorem C5_counterexample :
    (generate_winner c5State (U64 - 1) 1 0 10).toOption.map
        (fun r => r.2.ticket_number) = some 1 ∧
    specSearchTicket (U64 - 1) 7 [2] 0 (2 * 7) = some 3 ∧
    (1 : Nat) ≠ 3 := by
  refine ⟨by decide, by decide, by decide⟩

/-- C5 (amended).  For a closed round with `n` tickets sold, seed `seed` and
already-drawn winner set `w`, the draw loop tries the wrapped candidates
`((seed + attempt) mod 2^64 mod n) + 1` for attempts `0, 1, ...` up to the
budget `(2 * n) mod 2^64`: it selects the candidate of the smallest attempt
whose candidate is not in `w`, and fails with the exhausted-attempts error
exactly when every candidate within the budget is already in `w`. -/
theorem C5_selection (seed n : Nat) (w : List Nat) :
    (∀ t, searchTicket seed n w 0 (wrap64 (n * 2)) = some t ↔
      ∃ k, k < wrap64 (n * 2) ∧ drawCandidate seed n k ∉ w ∧
        (∀ j, j < k → drawCandidate seed n j ∈ w) ∧
        t = drawCandidate seed n k) ∧
    (searchTicket seed n w 0 (wrap64 (n * 2)) = none ↔
      ∀ k, k < wrap64 (n * 2) → drawCandidate seed n k ∈ w) := by
  constructor
  · intro t
    have h := searchTicket_some_iff seed n w (wrap64 (n * 2)) 0 t
    simpa using h
  · have h := searchTicket_none_iff seed n w (wrap64 (n * 2)) 0
    simpa using h

/-- An active round holding 1.3e18 sold tickets (reachable with a 1-atto
ticket price and a 1.3-token purchase), used to exhibit the u64 overflow in
the tier-quota computation. -/
def c8Round : LotteryRound :=
  { id := 1
    created_at := 0
    closed_at := none
    status := .Active
    ticket_price := 1
    total_tickets_sold := 1300000000000000000
    next_ticket_number := 1300000000000000001
    prize_pool := 1300000000000000000
    current_winner_pool := .Pool1
    pool1_count := 0
    pool2_count := 0
    pool3_count := 0
    pool4_count := 0
    pool1_winners_drawn := 0
    pool2_winners_drawn := 0
    pool3_winners_drawn := 0
    pool4_winners_drawn := 0 }

/-- The C8 counterexample state. -/
def c8State : State :=
  { round_counter := 1
    rounds := [(1, c8Round)]
    active_round := some 1
    ticket_purchases := []
    ticket_to_owner := []
    winning_tickets := []
    winner_log := [] }

/-- C8 counterexample.  Closing a round with n = 1.3e18 tickets sold sets the
tier-1 quota from the wrapped u64 product `n * 15 mod 2^64`, i.e.
10532559262904483, not the claimed `floor(n * 15 / 100)` =
195000000000000000. -/
theorem C8_counterexample :
    (close_lottery_round c8State 0).toOption.map
        (fun p => (mapGet p.1.rounds 1).map (fun r => r.pool1_count)) =
      some (some 10532559262904483) ∧
    (10532559262904483 : Nat) ≠ 1300000000000000000 * 15 / 100 := by
  refine ⟨by decide, by decide⟩

/-- C8 (amended).  Closing fails with the no-active-round error when no round
is active; with an active round it fails when fewer than 4 tickets were sold;
otherwise it sets the four tier quotas to `floor((n * pct mod 2^64) / 100)`
for percentages 15, 7, 5, 3 — equal to the claimed `floor(n * pct / 100)`
whenever `n * 15 < 2^64` — raising a zero quota to 1 for tiers 1..4 when `n`
exceeds 0, 1, 2, 3 respectively, and moves the round to Closed with the
cursor at tier 1 and no active round remaining. -/
theorem C8_close (s : State) (ts : Nat) :
    (s.active_round = none →
      close_lottery_round s ts = .error "No active round to close") ∧
    (∀ rid round, s.active_round = some rid →
      mapGet s.rounds rid = some round →
      round.status = .Active →
      ((round.total_tickets_sold < 4 →
        close_lottery_round s ts =
          .error "Cannot close round with fewer than 4 tickets sold") ∧
       (4 ≤ round.total_tickets_sold →
        ∃ s1, close_lottery_round s ts = .ok (s1, rid) ∧
          s1.active_round = none ∧
          ∃ round1, mapGet s1.rounds rid = some round1 ∧
            round1.status = .Closed ∧
            round1.current_winner_pool = .Pool1 ∧
            round1.closed_at = some ts ∧
            round1.total_tickets_sold = round.total_tickets_sold ∧
            (let n := round.total_tickets_sold
             round1.pool1_count =
               (if wrap64 (n * 15) / 100 = 0 ∧ n > 0 then 1
                else wrap64 (n * 15) / 100) ∧
             round1.pool2_count =
               (if wrap64 (n * 7) / 100 = 0 ∧ n > 1 then 1
                else wrap64 (n * 7) / 100) ∧
             round1.pool3_count =
               (if wrap64 (n * 5) / 100 = 0 ∧ n > 2 then 1
                else wrap64 (n * 5) / 100) ∧
             round1.pool4_count =
               (if wrap64 (n * 3) / 100 = 0 ∧ n > 3 then 1
                else wrap64 (n * 3) / 100)) ∧
            (round.total_tickets_sold * 15 < U64 →
             (let n := round.total_tickets_sold
              round1.pool1_count =
                (if n * 15 / 100 = 0 ∧ n > 0 then 1 else n * 15 / 100) ∧
              round1.pool2_count =
                (if n * 7 / 100 = 0 ∧ n > 1 then 1 else n * 7 / 100) ∧
              round1.pool3_count =
                (if n * 5 / 100 = 0 ∧ n > 2 then 1 else n * 5 / 100) ∧
              round1.pool4_count =
                (if n * 3 / 100 = 0 ∧ n > 3 then 1 else n * 3 / 100)))))) := by
  constructor
  · intro hnone
    unfold close_lottery_round
    rw [hnone]
  · intro rid round hactive hget hstatus
    have hns : ¬ round.status ≠ RoundStatus.Active := by simp [hstatus]
    constructor
    · intro hlt
      simp only [close_lottery_round, hactive, hget]
      rw [if_neg hns, if_pos hlt]
    · intro hge
      have hnlt : ¬ round.total_tickets_sold < 4 := by omega
      simp only [close_lottery_round, hactive, hget]
      rw [if_neg hns, if_neg hnlt]
      refine ⟨_, rfl, rfl, _, mapGet_insert_self _ _ _, rfl, rfl, rfl, rfl,
        ⟨rfl, rfl, rfl, rfl⟩, ?_⟩
      intro hsmall
      have h15 : round.total_tickets_sold * 15 % U64 =
          round.total_tickets_sold * 15 := Nat.mod_eq_of_lt hsmall
      have h7 : round.total_tickets_sold * 7 % U64 =
          round.total_tickets_sold * 7 :=
        Nat.mod_eq_of_lt (by nlinarith)
      have h5 : round.total_tickets_sold * 5 % U64 =
          round.total_tickets_sold * 5 :=
        Nat.mod_eq_of_lt (by nlinarith)
      have h3 : round.total_tickets_sold * 3 % U64 =
          round.total_tickets_sold * 3 :=
        Nat.mod_eq_of_lt (by nlinarith)
      unfold wrap64
      rw [h15, h7, h5, h3]
      exact ⟨rfl, rfl, rfl, rfl⟩

/-- C8 witness: the amended close behaviour exercised on the concrete
six-ticket round of the end-to-end scenario. -/
theorem C8_close_witness :
    4 ≤ c8Round.total_tickets_sold ∧
    (close_lottery_round c8State 0).toOption.map (fun p => p.2) = some 1 := by
  refine ⟨by decide, ?_⟩
  have h := (C8_close c8State 0).2 1 c8Round rfl rfl rfl
  obtain ⟨s1, hok, -⟩ := h.2 (by decide)
  rw [hok]
  rfl

end Lottery

/-- The lottery state after creating a round at price 1 and selling 4 tickets
to owner 3. -/
def c4lState : Lottery.State :=
  Lottery.run [.create 1 0, .purchase 3 4 1 none]

/-- C4 counterexample.  Closing the lottery round succeeds (returning the
closed round's id 1) but leaves the active-round pointer empty: no successor
Active round exists after a lottery CloseRound. -/
theorem C4_counterexample :
    (Lottery.close_lottery_round c4lState 5).toOption.map
        (fun p => (p.1.active_round, p.2)) = some (none, 1) := by
  decide

/-- C4 (amended).  After a successful prediction CloseRound a successor
Active round exists immediately: the active-round pointer refers to a fresh
round with the next id, status Active and zero pools.  After a successful
lottery CloseRound, however, no active round exists — the lottery successor
is created only later, when the final tier-4 winner is drawn. -/
theorem C4_close_successor :
    (∀ (s : Predict.State) (cp ts : Nat) (s1 : Predict.State) (nid : Nat),
      Predict.close_round s cp ts = .ok (s1, nid) →
      nid = s.round_counter + 1 ∧
      s1.active_round = some nid ∧
      s1.round_counter = nid ∧
      mapGet s1.rounds nid = some (Predict.freshRound nid ts) ∧
      (Predict.freshRound nid ts).status = .Active ∧
      (Predict.freshRound nid ts).prize_pool = 0 ∧
      (Predict.freshRound nid ts).up_bets_pool = 0 ∧
      (Predict.freshRound nid ts).down_bets_pool = 0) ∧
    (∀ (s : Lottery.State) (ts : Nat) (s1 : Lottery.State) (rid : Nat),
      Lottery.close_lottery_round s ts = .ok (s1, rid) →
      s1.active_round = none) := by
  constructor
  · intro s cp ts s1 nid h
    unfold Predict.close_round at h
    cases hact : s.active_round with
    | none => rw [hact] at h; exact absurd h (by simp)
    | some rid =>
      rw [hact] at h
      simp only at h
      cases hget : mapGet s.rounds rid with
      | none => rw [hget] at h; exact absurd h (by simp)
      | some round =>
        rw [hget] at h
        simp only at h
        by_cases hst : round.status ≠ Predict.RoundStatus.Active
        · rw [if_pos hst] at h
          exact absurd h (by simp)
        · rw [if_neg hst] at h
          simp only [Except.ok.injEq, Prod.mk.injEq] at h
          obtain ⟨h1, h2⟩ := h
          subst h1
          subst h2
          refine ⟨rfl, rfl, rfl, mapGet_insert_self _ _ _, rfl, rfl, rfl, rfl⟩
  · intro s ts s1 rid h
    unfold Lottery.close_lottery_round at h
    cases hact : s.active_round with
    | none => rw [hact] at h; exact absurd h (by simp)
    | some rid0 =>
      rw [hact] at h
      simp only at h
      cases hget : mapGet s.rounds rid0 with
      | none => rw [hget] at h; exact absurd h (by simp)
      | some round =>
        rw [hget] at h
        simp only at h
        by_cases hst : round.status ≠ Lottery.RoundStatus.Active
        · rw [if_pos hst] at h
          exact absurd h (by simp)
        · rw [if_neg hst] at h
          by_cases hlt : round.total_tickets_sold < 4
          · rw [if_pos hlt] at h
            exact absurd h (by simp)
          · rw [if_neg hlt] at h
            simp only [Except.ok.injEq, Prod.mk.injEq] at h
            obtain ⟨h1, -⟩ := h
            subst h1
            rfl

/-- The prediction state holding one freshly created round. -/
def c4pState : Predict.State := (Predict.create_round Predict.initState 0).1

/-- C4 witness: the amended statement exercised on concrete states — the
prediction close hands the pointer to fresh round 2, the lottery close leaves
it empty. -/
theorem C4_close_successor_witness :
    (Predict.close_round c4pState 50 10).toOption.map
        (fun p => (p.1.active_round, p.2)) = some (some 2, 2) ∧
    (Lottery.close_lottery_round c4lState 5).toOption.map
        (fun p => p.1.active_round) = some none := by
  constructor
  · have hsome : (Predict.close_round c4pState 50 10).toOption.isSome = true := by
      decide
    cases hok : Predict.close_round c4pState 50 10 with
    | error e => rw [hok] at hsome; simp [Except.toOption] at hsome
    | ok p =>
      have h := C4_close_successor.1 c4pState 50 10 p.1 p.2 (by rw [hok])
      simp only [Except.toOption, Option.map]
      rw [h.2.1, h.1]
      rfl
  · have hsome : (Lottery.close_lottery_round c4lState 5).toOption.isSome = true := by
      decide
    cases hok : Lottery.close_lottery_round c4lState 5 with
    | error e => rw [hok] at hsome; simp [Except.toOption] at hsome
    | ok p =>
      have h := C4_close_successor.2 c4lState 5 p.1 p.2 (by rw [hok])
      simp only [Except.toOption, Option.map]
      rw [h]

/-- Inserting a key leaves exactly one binding of that key. -/
theorem countP_mapInsert_self {K V : Type} [DecidableEq K]
    (m : List (K × V)) (k : K) (v : V) :
    (mapInsert m k v).countP (fun p => p.1 = k) = 1 := by
  unfold mapInsert
  rw [List.countP_cons_of_pos _ _ (by simp)]
  have : (m.filter fun p => ¬ p.1 = k).countP (fun p => p.1 = k) = 0 := by
    rw [List.countP_eq_zero]
    intro p hp
    have := List.of_mem_filter hp
    simpa using this
  omega

/-- C1 counterexample.  In the lottery, owner 7 buys 1 ticket for 10 and then
2 tickets for 20 in the same active round; the stored stake record afterwards
holds amount 20 and 2 tickets — the second purchase only, not the additive
merge (20, 2) ≠ (10 + 20, 1 + 2). -/
theorem C1_counterexample :
    (mapGet (Lottery.run
        [.create 10 0, .purchase 7 10 10 none, .purchase 7 20 10 none]).ticket_purchases
        (1, 7)).map
        (fun r => (r.amount_paid, r.total_tickets)) = some (20, 2) ∧
    (20 : Nat) ≠ 10 + 20 := by
  refine ⟨by decide, by decide⟩

/-- C1 (amended).  Two successful stake purchases by the same owner in the
same active round leave exactly one stake record for the (round, owner) pair.
In the prediction variant the record merges additively: its total amount is
the sum of both purchases.  In the lottery variant the record is overwritten:
it reflects only the second purchase (its amount paid and ticket count),
while the round aggregates still account for both. -/
theorem C1_repeat_stake :
    (∀ (s : Predict.State) (rid : Nat) (round : Predict.PredictionRound)
        (o a1 a2 : Nat) (d1 d2 : Predict.Direction) (src1 src2 : Option Nat)
        (s1 s2 : Predict.State),
      s.active_round = some rid →
      mapGet s.rounds rid = some round →
      round.status = Predict.RoundStatus.Active →
      mapGet s.active_bets o = none →
      a1 + a2 < U128 →
      Predict.place_bet s o a1 d1 src1 = .ok s1 →
      Predict.place_bet s1 o a2 d2 src2 = .ok s2 →
      ∃ bet : Predict.PredictionBet,
        mapGet s2.active_bets o = some bet ∧
        bet.amount_up + bet.amount_down = a1 + a2 ∧
        s2.active_bets.countP (fun p => p.1 = o) = 1) ∧
    (∀ (s : Lottery.State) (rid : Nat) (round : Lottery.LotteryRound)
        (o a1 a2 tp : Nat) (src1 src2 : Option Nat)
        (s1 s2 : Lottery.State) (r1 r2 : Lottery.TicketPurchase),
      s.active_round = some rid →
      mapGet s.rounds rid = some round →
      round.status = Lottery.RoundStatus.Active →
      Lottery.purchase_tickets s o a1 tp src1 = .ok (s1, r1) →
      Lottery.purchase_tickets s1 o a2 tp src2 = .ok (s2, r2) →
      mapGet s2.ticket_purchases (rid, o) = some r2 ∧
      r2.amount_paid = a2 ∧
      r2.total_tickets = wrap64 (a2 / round.ticket_price) ∧
      s2.ticket_purchases.countP (fun p => p.1 = (rid, o)) = 1) := by
  constructor
  · intro s rid round o a1 a2 d1 d2 src1 src2 s1 s2 hact hget hst hbet hlt h1 h2
    have hst' : ¬ round.status ≠ Predict.RoundStatus.Active := by simp [hst]
    simp only [Predict.place_bet, hact, hget, hbet] at h1
    rw [if_neg hst'] at h1
    have hlt2 : a1 + a2 < 2 ^ 128 := hlt
    cases d1 <;> simp only [Except.ok.injEq] at h1 <;> subst h1 <;>
      simp only [Predict.place_bet, hact, hget, mapGet_insert_self] at h2 <;>
      rw [if_neg hst'] at h2 <;>
      cases d2 <;> simp only [Except.ok.injEq] at h2 <;> subst h2 <;>
      refine ⟨_, mapGet_insert_self _ _ _, ?_, countP_mapInsert_self _ _ _⟩ <;>
      simp only [satAdd128, U128] <;> split_ifs <;> omega
  · intro s rid round o a1 a2 tp src1 src2 s1 s2 r1 r2 hact hget hst h1 h2
    have hst' : ¬ round.status ≠ Lottery.RoundStatus.Active := by simp [hst]
    simp only [Lottery.purchase_tickets, hact, hget] at h1
    rw [if_neg hst'] at h1
    by_cases hp : round.ticket_price = 0
    · rw [if_pos hp] at h1
      exact absurd h1 (by simp)
    · rw [if_neg hp] at h1
      by_cases hc1 : a1 / round.ticket_price = 0
      · rw [if_pos hc1] at h1
        exact absurd h1 (by simp)
      · rw [if_neg hc1] at h1
        simp only [Except.ok.injEq, Prod.mk.injEq] at h1
        obtain ⟨h1s, h1r⟩ := h1
        subst h1s
        simp only [Lottery.purchase_tickets, hact, mapGet_insert_self] at h2
        rw [if_neg hst'] at h2
        rw [if_neg hp] at h2
        by_cases hc2 : a2 / round.ticket_price = 0
        · rw [if_pos hc2] at h2
          exact absurd h2 (by simp)
        · rw [if_neg hc2] at h2
          simp only [Except.ok.injEq, Prod.mk.injEq] at h2
          obtain ⟨h2s, h2r⟩ := h2
          subst h2s
          subst h2r
          refine ⟨mapGet_insert_self _ _ _, rfl, rfl,
            countP_mapInsert_self _ _ _⟩

/-- Prediction state after one Up bet of 100 by owner 1. -/
def c1pState1 : Predict.State :=
  Predict.run [.create 0, .bet 1 100 .Up none]

/-- Prediction state after a second, Down bet of 50 by the same owner. -/
def c1pState2 : Predict.State :=
  Predict.run [.create 0, .bet 1 100 .Up none, .bet 1 50 .Down none]

/-- Lottery states after one and two purchases by owner 7 at ticket price 10. -/
def c1lState1 : Lottery.State :=
  Lottery.run [.create 10 0, .purchase 7 10 10 none]

def c1lState2 : Lottery.State :=
  Lottery.run [.create 10 0, .purchase 7 10 10 none, .purchase 7 20 10 none]

/-- C1 witness: the amended statement exercised on concrete double stakes —
the prediction record totals 100 + 50, the lottery record holds the second
purchase, and each map holds exactly one record for the pair. -/
theorem C1_repeat_stake_witness :
    (mapGet c1pState2.active_bets 1).map
        (fun b => b.amount_up + b.amount_down) = some 150 ∧
    c1pState2.active_bets.countP (fun p => p.1 = 1) = 1 ∧
    (mapGet c1lState2.ticket_purchases (1, 7)).map
        (fun r => (r.amount_paid, r.total_tickets)) = some (20, 2) ∧
    c1lState2.ticket_purchases.countP (fun p => p.1 = (1, 7)) = 1 := by
  obtain ⟨bet, hb, hsum, hcount⟩ :=
    C1_repeat_stake.1 c4pState 1 (Predict.freshRound 1 0) 1 100 50 .Up .Down
      none none c1pState1 c1pState2 rfl (by decide) rfl (by decide)
      (by decide) rfl rfl
  obtain ⟨hl, hl2, hl3, hl4⟩ :=
    C1_repeat_stake.2 (Lottery.run [.create 10 0]) 1
      { id := 1, created_at := 0, closed_at := none
        status := .Active, ticket_price := 10, total_tickets_sold := 0
        next_ticket_number := 1, prize_pool := 0
        current_winner_pool := .Pool1
        pool1_count := 0, pool2_count := 0, pool3_count := 0, pool4_count := 0
        pool1_winners_drawn := 0, pool2_winners_drawn := 0
        pool3_winners_drawn := 0, pool4_winners_drawn := 0 }
      7 10 20 10 none none c1lState1 c1lState2
      { owner := 7, first_ticket := 1, last_ticket := 1, total_tickets := 1
        amount_paid := 10, source_chain_id := none }
      { owner := 7, first_ticket := 2, last_ticket := 3, total_tickets := 2
        amount_paid := 20, source_chain_id := none }
      rfl (by decide) (by decide) rfl rfl
  refine ⟨?_, hcount, ?_, hl4⟩
  · rw [hb]
    simp only [Option.map]
    rw [hsum]
  · rw [hl]
    simp only [Option.map, hl2, hl3]

namespace Predict

/-- The outcome rule of `resolve_round_and_distribute_rewards`: resolution
price strictly above the closing price means Up, strictly below means Down,
equal means no outcome. -/
def outcomeOf (closing resolution : Nat) : Option Direction :=
  if resolution > closing then some .Up
  else if resolution < closing then some .Down
  else none

/-- The winning-side pool picked by the resolver for a given outcome. -/
def winnerPoolOf (round : PredictionRound) : Option Direction → Nat
  | some .Up => round.up_bets_pool
  | some .Down => round.down_bets_pool
  | none => 0

/-- Modelled from the spec: the claimed winnings of one bet — the stake on
the winning side times the total pool, integer-divided by the winning-side
pool; zero when there is no outcome or the winning-side pool is zero. -/
def specWinnings (res : Option Direction) (wpool total : Nat)
    (b : PredictionBet) : Nat :=
  match res with
  | none => 0
  | some .Up => if wpool = 0 then 0 else b.amount_up * total / wpool
  | some .Down => if wpool = 0 then 0 else b.amount_down * total / wpool

/-- The outcome row's winnings agree with the claimed formula whenever the
winning-side stake is within the side pool and the total pool is a
representable `u128`. -/
theorem rewardRow_winnings_eq (res : Option Direction) (wpool total : Nat)
    (b : PredictionBet) (hT : total < U128)
    (hup : res = some Direction.Up → b.amount_up ≤ wpool)
    (hdown : res = some Direction.Down → b.amount_down ≤ wpool) :
    (rewardRow res wpool total b).winnings = specWinnings res wpool total b := by
  match res with
  | none =>
    simp [rewardRow, specWinnings, satAdd128]
  | some Direction.Up =>
    have hb2 := hup rfl
    by_cases hw : wpool = 0
    · simp [rewardRow, specWinnings, hw, satAdd128]
    · have h1 : b.amount_up * total ≤ wpool * total :=
        Nat.mul_le_mul_right _ hb2
      have h2 : b.amount_up * total / wpool ≤ wpool * total / wpool :=
        Nat.div_le_div_right h1
      have h3 : wpool * total / wpool = total :=
        Nat.mul_div_cancel_left _ (Nat.pos_of_ne_zero hw)
      have hDle : b.amount_up * total / wpool ≤ total := by omega
      by_cases hz : b.amount_up = 0
      · simp [rewardRow, specWinnings, hw, hz, satAdd128,
          calculate_winnings_proportional]
      · simp only [rewardRow, specWinnings, calculate_winnings_proportional,
          satAdd128, hw, hz]
        simp only [ne_eq, not_false_eq_true, true_and, and_true, if_false,
          if_true, reduceCtorEq, and_false, false_and, if_neg, not_true_eq_false]
        simp
        split_ifs <;> omega
  | some Direction.Down =>
    have hb2 := hdown rfl
    by_cases hw : wpool = 0
    · simp [rewardRow, specWinnings, hw, satAdd128]
    · have h1 : b.amount_down * total ≤ wpool * total :=
        Nat.mul_le_mul_right _ hb2
      have h2 : b.amount_down * total / wpool ≤ wpool * total / wpool :=
        Nat.div_le_div_right h1
      have h3 : wpool * total / wpool = total :=
        Nat.mul_div_cancel_left _ (Nat.pos_of_ne_zero hw)
      have hDle : b.amount_down * total / wpool ≤ total := by omega
      by_cases hz : b.amount_down = 0
      · simp [rewardRow, specWinnings, hw, hz, satAdd128,
          calculate_winnings_proportional]
      · simp only [rewardRow, specWinnings, calculate_winnings_proportional,
          satAdd128, hw, hz]
        simp only [ne_eq, not_false_eq_true, true_and, and_true, if_false,
          if_true, reduceCtorEq, and_false, false_and, if_neg, not_true_eq_false]
        simp
        split_ifs <;> omega

/-- C3.  Resolving a closed round with a recorded closing price: a strictly
greater resolution price yields outcome Up, strictly smaller yields Down,
equality yields no outcome with zero winnings for every bettor; the round is
marked Resolved in every case, and each bettor's winnings equal the claimed
proportional share floor(stake * total_pool / winning_side_pool), zero
whenever the winning-side pool is zero. -/
theorem C3_resolution (s : State) (rid rp ts cp : Nat)
    (round : PredictionRound)
    (hget : mapGet s.rounds rid = some round)
    (hst : round.status = RoundStatus.Closed)
    (hcp : round.closing_price = some cp)
    (hT : round.prize_pool < U128)
    (hbound : ∀ p ∈ s.closed_bets, p.1.1 = rid →
      p.2.amount_up ≤ round.up_bets_pool ∧
      p.2.amount_down ≤ round.down_bets_pool) :
    ∃ s1 rows,
      resolve_round_and_distribute_rewards s rid rp ts = .ok (s1, rows) ∧
      (∃ round1, mapGet s1.rounds rid = some round1 ∧
        round1.status = RoundStatus.Resolved ∧
        round1.resolution_price = some rp ∧
        round1.result = outcomeOf cp rp ∧
        round1.prize_pool = round.prize_pool) ∧
      rows.map (fun r => (r.owner, r.winnings)) =
        (s.closed_bets.filter (fun p => p.1.1 = rid)).map
          (fun p => (p.2.owner,
            specWinnings (outcomeOf cp rp)
              (winnerPoolOf round (outcomeOf cp rp)) round.prize_pool p.2)) ∧
      (rp = cp → ∀ r ∈ rows, r.winnings = 0) := by
  have hst' : ¬ round.status ≠ RoundStatus.Closed := by simp [hst]
  simp only [resolve_round_and_distribute_rewards, hget]
  rw [if_neg hst']
  simp only [hcp]
  rcases Nat.lt_trichotomy cp rp with hlt | heq | hgt
  · have hout : outcomeOf cp rp = some Direction.Up := by
      unfold outcomeOf
      rw [if_pos hlt]
    simp only [gt_iff_lt, hlt, if_true, hout]
    refine ⟨_, _, rfl, ⟨_, mapGet_insert_self _ _ _, rfl, rfl, hout ▸ rfl, rfl⟩,
      ?_, ?_⟩
    · rw [List.map_map]
      apply List.map_congr_left
      intro p hp
      have hpmem := List.mem_filter.1 hp
      have hb := hbound p hpmem.1 (by simpa using hpmem.2)
      simp only [Function.comp]
      refine Prod.ext rfl ?_
      simp only
      rw [rewardRow_winnings_eq _ _ _ _ hT (fun _ => hb.1) (by simp)]
      rfl
    · intro he
      omega
  · subst heq
    have hout : outcomeOf cp cp = none := by
      unfold outcomeOf
      simp
    simp only [lt_irrefl, if_false, gt_iff_lt, hout]
    refine ⟨_, _, rfl, ⟨_, mapGet_insert_self _ _ _, rfl, rfl, hout ▸ rfl, rfl⟩,
      ?_, ?_⟩
    · rw [List.map_map]
      apply List.map_congr_left
      intro p hp
      simp only [Function.comp]
      refine Prod.ext rfl ?_
      simp only
      rw [rewardRow_winnings_eq _ _ _ _ hT (by simp) (by simp)]
      rfl
    · intro _ r hr
      obtain ⟨p, hp, hpr⟩ := List.mem_map.1 hr
      rw [← hpr]
      rw [rewardRow_winnings_eq _ _ _ _ hT (by simp) (by simp)]
      rfl
  · have hnlt : ¬ cp < rp := by omega
    have hout : outcomeOf cp rp = some Direction.Down := by
      unfold outcomeOf
      rw [if_neg hnlt, if_pos hgt]
    simp only [gt_iff_lt, hnlt, if_false, hgt, if_true, hout]
    refine ⟨_, _, rfl, ⟨_, mapGet_insert_self _ _ _, rfl, rfl, hout ▸ rfl, rfl⟩,
      ?_, ?_⟩
    · rw [List.map_map]
      apply List.map_congr_left
      intro p hp
      have hpmem := List.mem_filter.1 hp
      have hb := hbound p hpmem.1 (by simpa using hpmem.2)
      simp only [Function.comp]
      refine Prod.ext rfl ?_
      simp only
      rw [rewardRow_winnings_eq _ _ _ _ hT (by simp) (fun _ => hb.2)]
      rfl
    · intro he
      omega

/-- The prediction state of the worked scenario: owner 1 bets 100 Up, owner 2
bets 200 Down, and the round closes at price 50. -/
def c3State : State :=
  run [.create 0, .bet 1 100 .Up none, .bet 2 200 .Down none, .close 50 10]

/-- The closed round stored in `c3State`. -/
def c3Round : PredictionRound :=
  { id := 1
    created_at := 0
    closed_at := some 10
    resolved_at := none
    status := .Closed
    closing_price := some 50
    resolution_price := none
    up_bets := 1
    down_bets := 1
    up_bets_pool := 100
    down_bets_pool := 200
    prize_pool := 300
    result := none }

/-- C3 witness: the resolution theorem applied to the concrete scenario at
resolution price 60 > 50 (outcome Up). -/
theorem C3_resolution_witness :
    ∃ s1 rows,
      resolve_round_and_distribute_rewards c3State 1 60 20 = .ok (s1, rows) ∧
      (∃ round1, mapGet s1.rounds 1 = some round1 ∧
        round1.status = RoundStatus.Resolved ∧
        round1.resolution_price = some 60 ∧
        round1.result = outcomeOf 50 60 ∧
        round1.prize_pool = c3Round.prize_pool) ∧
      rows.map (fun r => (r.owner, r.winnings)) =
        (c3State.closed_bets.filter (fun p => p.1.1 = 1)).map
          (fun p => (p.2.owner,
            specWinnings (outcomeOf 50 60)
              (winnerPoolOf c3Round (outcomeOf 50 60)) c3Round.prize_pool
              p.2)) ∧
      ((60 : Nat) = 50 → ∀ r ∈ rows, r.winnings = 0) :=
  C3_resolution c3State 1 60 20 50 c3Round (by decide) (by decide) (by decide)
    (by decide) (by decide)

/-- C10.  A prediction round resolved at a resolution price equal to its
recorded closing price stores no result; querying its winners afterwards
returns the "Round has no result" error rather than an empty list, even
though the round is Resolved. -/
theorem C10_no_result_query (s : State) (rid cp ts : Nat)
    (round : PredictionRound)
    (hget : mapGet s.rounds rid = some round)
    (hst : round.status = RoundStatus.Closed)
    (hcp : round.closing_price = some cp)
    (s1 : State) (rows : List RewardRow)
    (hok : resolve_round_and_distribute_rewards s rid cp ts = .ok (s1, rows)) :
    get_round_winners s1 rid = .error "Round has no result" := by
  have hst' : ¬ round.status ≠ RoundStatus.Closed := by simp [hst]
  simp only [resolve_round_and_distribute_rewards, hget] at hok
  rw [if_neg hst'] at hok
  simp only [hcp, lt_irrefl, if_false, gt_iff_lt] at hok
  simp only [Except.ok.injEq, Prod.mk.injEq] at hok
  obtain ⟨h1, -⟩ := hok
  subst h1
  simp [get_round_winners, mapGet_insert_self]

/-- C10 witness: resolving the concrete scenario at the closing price 50 and
then querying the winners yields the no-result error. -/
theorem C10_no_result_query_witness :
    (resolve_round_and_distribute_rewards c3State 1 50 20).toOption.map
        (fun p => get_round_winners p.1 1) =
      some (.error "Round has no result") := by
  have hsome :
      (resolve_round_and_distribute_rewards c3State 1 50 20).toOption.isSome
        = true := by decide
  cases hok : resolve_round_and_distribute_rewards c3State 1 50 20 with
  | error e => rw [hok] at hsome; simp [Except.toOption] at hsome
  | ok p =>
    simp only [Except.toOption, Option.map]
    rw [C10_no_result_query c3State 1 50 20 c3Round (by decide) (by decide)
      (by decide) p.1 p.2 (by rw [hok])]

end Predict

namespace Lottery

/-- Winners already drawn in a given tier. -/
def drawnOf (r : LotteryRound) : WinnerPool → Nat
  | .Pool1 => r.pool1_winners_drawn
  | .Pool2 => r.pool2_winners_drawn
  | .Pool3 => r.pool3_winners_drawn
  | .Pool4 => r.pool4_winners_drawn
  | .Complete => 0

/-- Target winner count (quota) of a given tier. -/
def quotaOf (r : LotteryRound) : WinnerPool → Nat
  | .Pool1 => r.pool1_count
  | .Pool2 => r.pool2_count
  | .Pool3 => r.pool3_count
  | .Pool4 => r.pool4_count
  | .Complete => 0

/-- Position of a tier in the drawing order. -/
def tierIdx : WinnerPool → Nat
  | .Pool1 => 1
  | .Pool2 => 2
  | .Pool3 => 3
  | .Pool4 => 4
  | .Complete => 5

/-- Relation between the tier cursor and the per-tier progress counters of a
Closed round: every tier before the cursor has met its quota, the cursor tier
has not, and every tier after the cursor is untouched. -/
def CursorInv (r : LotteryRound) : Prop :=
  match r.current_winner_pool with
  | .Pool1 =>
      r.pool1_winners_drawn < r.pool1_count ∧
      r.pool2_winners_drawn = 0 ∧ r.pool3_winners_drawn = 0 ∧
      r.pool4_winners_drawn = 0
  | .Pool2 =>
      r.pool1_winners_drawn = r.pool1_count ∧
      r.pool2_winners_drawn < r.pool2_count ∧
      r.pool3_winners_drawn = 0 ∧ r.pool4_winners_drawn = 0
  | .Pool3 =>
      r.pool1_winners_drawn = r.pool1_count ∧
      r.pool2_winners_drawn = r.pool2_count ∧
      r.pool3_winners_drawn < r.pool3_count ∧ r.pool4_winners_drawn = 0
  | .Pool4 =>
      r.pool1_winners_drawn = r.pool1_count ∧
      r.pool2_winners_drawn = r.pool2_count ∧
      r.pool3_winners_drawn = r.pool3_count ∧
      r.pool4_winners_drawn < r.pool4_count
  | .Complete => False

/-- Tier bookkeeping invariant of a single round, per status. -/
def TierInv (r : LotteryRound) : Prop :=
  match r.status with
  | .Active =>
      r.current_winner_pool = .Pool1 ∧
      r.pool1_count = 0 ∧ r.pool2_count = 0 ∧ r.pool3_count = 0 ∧
      r.pool4_count = 0 ∧
      r.pool1_winners_drawn = 0 ∧ r.pool2_winners_drawn = 0 ∧
      r.pool3_winners_drawn = 0 ∧ r.pool4_winners_drawn = 0
  | .Closed =>
      1 ≤ r.pool1_count ∧ 1 ≤ r.pool2_count ∧ 1 ≤ r.pool3_count ∧
      1 ≤ r.pool4_count ∧ CursorInv r
  | .Complete =>
      r.current_winner_pool = .Complete ∧
      r.pool1_winners_drawn = r.pool1_count ∧
      r.pool2_winners_drawn = r.pool2_count ∧
      r.pool3_winners_drawn = r.pool3_count ∧
      r.pool4_winners_drawn = r.pool4_count

/-- The inductive invariant of the lottery application state. -/
structure Inv (s : State) : Prop where
  counter_bound : ∀ rid r, mapGet s.rounds rid = some r → rid ≤ s.round_counter
  log_bound : ∀ e ∈ s.winner_log, e.1 ≤ s.round_counter
  log_recorded : ∀ e ∈ s.winner_log, ∀ r, mapGet s.rounds e.1 = some r →
      r.status = RoundStatus.Closed →
      ∃ w, mapGet s.winning_tickets e = some w
  log_nodup : s.winner_log.Nodup
  not_active : ∀ e ∈ s.winner_log, ∀ r, mapGet s.rounds e.1 = some r →
      r.status ≠ RoundStatus.Active
  tier : ∀ rid r, mapGet s.rounds rid = some r → TierInv r

theorem Inv_init : Inv initState := by
  refine ⟨?_, ?_, ?_, ?_, ?_, ?_⟩ <;>
    simp [initState, mapGet]

/-- `cleanup_old_round` only ever removes the target round. -/
theorem cleanup_rounds_get (s : State) (rid0 rid : Nat) :
    mapGet (cleanup_old_round s rid0).rounds rid =
      if rid = rid0 then none else mapGet s.rounds rid := by
  by_cases hr : rid = rid0
  · subst hr
    unfold cleanup_old_round
    cases mapGet s.rounds rid <;> simp [mapGet_remove_self]
  · unfold cleanup_old_round
    cases mapGet s.rounds rid0 <;> simp [mapGet_remove_ne _ _ _ hr, hr]

/-- `cleanup_old_round` keeps every winning-ticket entry of other rounds. -/
theorem cleanup_wt_get (s : State) (rid0 : Nat) (k : Nat × Nat)
    (hk : k.1 ≠ rid0) :
    mapGet (cleanup_old_round s rid0).winning_tickets k =
      mapGet s.winning_tickets k := by
  unfold cleanup_old_round
  cases mapGet s.rounds rid0 with
  | none => rfl
  | some round =>
    simp only
    apply mapGet_filter_keep
    intro v
    simp only [decide_eq_true_eq]
    intro hcon
    exact hk hcon.1

theorem cleanup_counter (s : State) (rid0 : Nat) :
    (cleanup_old_round s rid0).round_counter = s.round_counter := by
  unfold cleanup_old_round
  cases mapGet s.rounds rid0 <;> rfl

theorem cleanup_log (s : State) (rid0 : Nat) :
    (cleanup_old_round s rid0).winner_log = s.winner_log := by
  unfold cleanup_old_round
  cases mapGet s.rounds rid0 <;> rfl

/-- The Active round inserted by `create_lottery_round`. -/
theorem create_round_value (s : State) (tp ts : Nat) :
    mapGet (create_lottery_round s tp ts).1.rounds (s.round_counter + 1) =
      some
        { id := s.round_counter + 1
          created_at := ts
          closed_at := none
          status := .Active
          ticket_price := tp
          total_tickets_sold := 0
          next_ticket_number := 1
          prize_pool := 0
          current_winner_pool := .Pool1
          pool1_count := 0, pool2_count := 0, pool3_count := 0
          pool4_count := 0
          pool1_winners_drawn := 0, pool2_winners_drawn := 0
          pool3_winners_drawn := 0, pool4_winners_drawn := 0 } := by
  unfold create_lottery_round
  by_cases h5 : s.round_counter + 1 > MAX_HISTORY_ROUNDS <;>
    simp only [h5, if_true, if_false, mapGet_insert_self]

/-- Rounds other than the fresh one and the purged one are untouched by
`create_lottery_round`. -/
theorem create_rounds_get (s : State) (tp ts rid : Nat)
    (hnew : rid ≠ s.round_counter + 1)
    (hold : ¬ (s.round_counter + 1 > MAX_HISTORY_ROUNDS ∧
      rid = s.round_counter + 1 - MAX_HISTORY_ROUNDS)) :
    mapGet (create_lottery_round s tp ts).1.rounds rid = mapGet s.rounds rid := by
  unfold create_lottery_round
  by_cases h5 : s.round_counter + 1 > MAX_HISTORY_ROUNDS
  · simp only [h5, if_true, mapGet_insert_ne _ _ _ _ hnew]
    rw [cleanup_rounds_get]
    have : rid ≠ s.round_counter + 1 - MAX_HISTORY_ROUNDS := fun hc =>
      hold ⟨h5, hc⟩
    simp [this]
  · simp only [h5, if_false, mapGet_insert_ne _ _ _ _ hnew]

/-- The purged round is gone (when purging applies). -/
theorem create_rounds_get_old (s : State) (tp ts : Nat)
    (h5 : s.round_counter + 1 > MAX_HISTORY_ROUNDS) :
    mapGet (create_lottery_round s tp ts).1.rounds
      (s.round_counter + 1 - MAX_HISTORY_ROUNDS) = none := by
  unfold create_lottery_round
  have hne : s.round_counter + 1 - MAX_HISTORY_ROUNDS ≠ s.round_counter + 1 := by
    unfold MAX_HISTORY_ROUNDS at *
    omega
  simp only [h5, if_true, mapGet_insert_ne _ _ _ _ hne]
  rw [cleanup_rounds_get]
  simp

theorem create_counter (s : State) (tp ts : Nat) :
    (create_lottery_round s tp ts).1.round_counter = s.round_counter + 1 := by
  unfold create_lottery_round
  by_cases h5 : s.round_counter + 1 > MAX_HISTORY_ROUNDS <;>
    simp only [h5, if_true, if_false] <;> rw [cleanup_counter]

theorem create_log (s : State) (tp ts : Nat) :
    (create_lottery_round s tp ts).1.winner_log = s.winner_log := by
  unfold create_lottery_round
  by_cases h5 : s.round_counter + 1 > MAX_HISTORY_ROUNDS <;>
    simp only [h5, if_true, if_false]
  · rw [cleanup_log]

/-- Winning tickets of rounds other than the purged one are untouched. -/
theorem create_wt_get (s : State) (tp ts : Nat) (k : Nat × Nat)
    (hk : ¬ (s.round_counter + 1 > MAX_HISTORY_ROUNDS ∧
      k.1 = s.round_counter + 1 - MAX_HISTORY_ROUNDS)) :
    mapGet (create_lottery_round s tp ts).1.winning_tickets k =
      mapGet s.winning_tickets k := by
  unfold create_lottery_round
  by_cases h5 : s.round_counter + 1 > MAX_HISTORY_ROUNDS
  · simp only [h5, if_true]
    exact cleanup_wt_get _ _ _ fun hc => hk ⟨h5, hc⟩
  · simp only [h5, if_false]

/-- Creating a round preserves the invariant. -/
theorem Inv_create (s : State) (inv : Inv s) (tp ts : Nat) :
    Inv (create_lottery_round s tp ts).1 := by
  constructor
  · intro rid r hget
    rw [create_counter]
    by_cases hnew : rid = s.round_counter + 1
    · omega
    · by_cases hold : s.round_counter + 1 > MAX_HISTORY_ROUNDS ∧
          rid = s.round_counter + 1 - MAX_HISTORY_ROUNDS
      · rw [hold.2, create_rounds_get_old s tp ts hold.1] at hget
        exact absurd hget (by simp)
      · rw [create_rounds_get s tp ts rid hnew hold] at hget
        have := inv.counter_bound rid r hget
        omega
  · intro e he
    rw [create_log] at he
    rw [create_counter]
    have := inv.log_bound e he
    omega
  · intro e he r hget hst
    rw [create_log] at he
    by_cases hnew : e.1 = s.round_counter + 1
    · rw [hnew, create_round_value] at hget
      injection hget with h
      rw [← h] at hst
      exact absurd hst (by simp)
    · by_cases hold : s.round_counter + 1 > MAX_HISTORY_ROUNDS ∧
          e.1 = s.round_counter + 1 - MAX_HISTORY_ROUNDS
      · rw [hold.2, create_rounds_get_old s tp ts hold.1] at hget
        exact absurd hget (by simp)
      · rw [create_rounds_get s tp ts e.1 hnew hold] at hget
        obtain ⟨w, hw⟩ := inv.log_recorded e he r hget hst
        refine ⟨w, ?_⟩
        rw [create_wt_get s tp ts e (fun hcon => hold hcon)]
        exact hw
  · rw [create_log]
    exact inv.log_nodup
  · intro e he r hget
    rw [create_log] at he
    by_cases hnew : e.1 = s.round_counter + 1
    · have := inv.log_bound e he
      omega
    · by_cases hold : s.round_counter + 1 > MAX_HISTORY_ROUNDS ∧
          e.1 = s.round_counter + 1 - MAX_HISTORY_ROUNDS
      · rw [hold.2, create_rounds_get_old s tp ts hold.1] at hget
        exact absurd hget (by simp)
      · rw [create_rounds_get s tp ts e.1 hnew hold] at hget
        exact inv.not_active e he r hget
  · intro rid r hget
    by_cases hnew : rid = s.round_counter + 1
    · rw [hnew, create_round_value] at hget
      injection hget with h
      rw [← h]
      exact ⟨rfl, rfl, rfl, rfl, rfl, rfl, rfl, rfl, rfl⟩
    · by_cases hold : s.round_counter + 1 > MAX_HISTORY_ROUNDS ∧
          rid = s.round_counter + 1 - MAX_HISTORY_ROUNDS
      · rw [hold.2, create_rounds_get_old s tp ts hold.1] at hget
        exact absurd hget (by simp)
      · rw [create_rounds_get s tp ts rid hnew hold] at hget
        exact inv.tier rid r hget

/-- Marking a prize claimed preserves the invariant. -/
theorem Inv_markClaimed (s : State) (inv : Inv s) (rid t : Nat) (s1 : State)
    (h : mark_prize_claimed s rid t = .ok s1) : Inv s1 := by
  unfold mark_prize_claimed at h
  cases hw : mapGet s.winning_tickets (rid, t) with
  | none => rw [hw] at h; exact absurd h (by simp)
  | some info =>
    rw [hw] at h
    simp only [Except.ok.injEq] at h
    subst h
    constructor
    · exact inv.counter_bound
    · exact inv.log_bound
    · intro e he r hget hst
      obtain ⟨w, hwe⟩ := inv.log_recorded e he r hget hst
      by_cases hk : e = (rid, t)
      · subst hk
        exact ⟨_, mapGet_insert_self _ _ _⟩
      · refine ⟨w, ?_⟩
        rw [mapGet_insert_ne _ _ _ _ hk]
        exact hwe
    · exact inv.log_nodup
    · exact inv.not_active
    · exact inv.tier

/-- Closing the active round preserves the invariant. -/
theorem Inv_close (s : State) (inv : Inv s) (ts : Nat) (s1 : State) (rid : Nat)
    (h : close_lottery_round s ts = .ok (s1, rid)) : Inv s1 := by
  unfold close_lottery_round at h
  cases hact : s.active_round with
  | none => rw [hact] at h; exact absurd h (by simp)
  | some rid0 =>
    rw [hact] at h
    simp only at h
    cases hget : mapGet s.rounds rid0 with
    | none => rw [hget] at h; exact absurd h (by simp)
    | some round =>
      rw [hget] at h
      simp only at h
      by_cases hst : round.status ≠ RoundStatus.Active
      · rw [if_pos hst] at h
        exact absurd h (by simp)
      · rw [if_neg hst] at h
        by_cases hlt : round.total_tickets_sold < 4
        · rw [if_pos hlt] at h
          exact absurd h (by simp)
        · rw [if_neg hlt] at h
          simp only [Except.ok.injEq, Prod.mk.injEq] at h
          obtain ⟨h1, h2⟩ := h
          subst h1
          have hstA : round.status = RoundStatus.Active := by
            by_contra hc
            exact hst hc
          have hnolog : ∀ e ∈ s.winner_log, e.1 ≠ rid0 := by
            intro e he hc
            exact inv.not_active e he round (hc ▸ hget) hstA
          have htA := inv.tier rid0 round hget
          rw [TierInv, hstA] at htA
          constructor
          · intro rid1 r hget1
            by_cases hr : rid1 = rid0
            · subst hr
              exact inv.counter_bound rid1 round hget
            · rw [mapGet_insert_ne _ _ _ _ hr] at hget1
              exact inv.counter_bound rid1 r hget1
          · exact inv.log_bound
          · intro e he r hget1 hst1
            by_cases hr : e.1 = rid0
            · exact absurd hr (hnolog e he)
            · rw [mapGet_insert_ne _ _ _ _ hr] at hget1
              exact inv.log_recorded e he r hget1 hst1
          · exact inv.log_nodup
          · intro e he r hget1
            by_cases hr : e.1 = rid0
            · exact absurd hr (hnolog e he)
            · rw [mapGet_insert_ne _ _ _ _ hr] at hget1
              exact inv.not_active e he r hget1
          · intro rid1 r hget1
            by_cases hr : rid1 = rid0
            · subst hr
              rw [mapGet_insert_self] at hget1
              injection hget1 with hr1
              rw [← hr1]
              rw [TierInv]
              simp only
              obtain ⟨-, -, -, -, -, hd1, hd2, hd3, hd4⟩ := htA
              refine ⟨?_, ?_, ?_, ?_, ?_⟩
              · split_ifs <;> omega
              · split_ifs <;> omega
              · split_ifs <;> omega
              · split_ifs <;> omega
              · rw [CursorInv]
                simp only
                refine ⟨?_, hd2, hd3, hd4⟩
                rw [hd1]
                split_ifs <;> omega
            · rw [mapGet_insert_ne _ _ _ _ hr] at hget1
              exact inv.tier rid1 r hget1

/-- Purchasing tickets preserves the invariant. -/
theorem Inv_purchase (s : State) (inv : Inv s) (o a tp : Nat)
    (src : Option Nat) (s1 : State) (r : TicketPurchase)
    (h : purchase_tickets s o a tp src = .ok (s1, r)) : Inv s1 := by
  unfold purchase_tickets at h
  cases hact : s.active_round with
  | none => rw [hact] at h; exact absurd h (by simp)
  | some rid0 =>
    rw [hact] at h
    simp only at h
    cases hget : mapGet s.rounds rid0 with
    | none => rw [hget] at h; exact absurd h (by simp)
    | some round =>
      rw [hget] at h
      simp only at h
      by_cases hst : round.status ≠ RoundStatus.Active
      · rw [if_pos hst] at h
        exact absurd h (by simp)
      · rw [if_neg hst] at h
        by_cases hp : round.ticket_price = 0
        · rw [if_pos hp] at h
          exact absurd h (by simp)
        · rw [if_neg hp] at h
          by_cases hc : a / round.ticket_price = 0
          · rw [if_pos hc] at h
            exact absurd h (by simp)
          · rw [if_neg hc] at h
            simp only [Except.ok.injEq, Prod.mk.injEq] at h
            obtain ⟨h1, -⟩ := h
            subst h1
            have hstA : round.status = RoundStatus.Active := by
              by_contra hcon
              exact hst hcon
            have hnolog : ∀ e ∈ s.winner_log, e.1 ≠ rid0 := by
              intro e he hcon
              exact inv.not_active e he round (hcon ▸ hget) hstA
            have htA := inv.tier rid0 round hget
            rw [TierInv, hstA] at htA
            constructor
            · intro rid1 r1 hget1
              by_cases hr : rid1 = rid0
              · subst hr
                exact inv.counter_bound rid1 round hget
              · rw [mapGet_insert_ne _ _ _ _ hr] at hget1
                exact inv.counter_bound rid1 r1 hget1
            · exact inv.log_bound
            · intro e he r1 hget1 hst1
              by_cases hr : e.1 = rid0
              · exact absurd hr (hnolog e he)
              · rw [mapGet_insert_ne _ _ _ _ hr] at hget1
                exact inv.log_recorded e he r1 hget1 hst1
            · exact inv.log_nodup
            · intro e he r1 hget1
              by_cases hr : e.1 = rid0
              · exact absurd hr (hnolog e he)
              · rw [mapGet_insert_ne _ _ _ _ hr] at hget1
                exact inv.not_active e he r1 hget1
            · intro rid1 r1 hget1
              by_cases hr : rid1 = rid0
              · subst hr
                rw [mapGet_insert_self] at hget1
                injection hget1 with hr1
                rw [← hr1]
                exact inv.tier rid1 round hget
              · rw [mapGet_insert_ne _ _ _ _ hr] at hget1
                exact inv.tier rid1 r1 hget1

/-- A recorded winning ticket of a round is among that round's drawn-winner
ticket numbers. -/
theorem mem_winnersOf_of_get {s : State} {rid t : Nat} {w : WinInfo}
    (h : mapGet s.winning_tickets (rid, t) = some w) : t ∈ winnersOf s rid := by
  unfold winnersOf
  refine List.mem_filterMap.2 ⟨(rid, t), ?_, by simp⟩
  unfold mapKeys
  exact List.mem_map_of_mem _ (mapGet_eq_some_mem h)

/-- The ticket selected by the draw loop is not an existing winner. -/
theorem searchTicket_not_mem {seed n : Nat} {w : List Nat} {a fuel t : Nat}
    (h : searchTicket seed n w a fuel = some t) : t ∉ w := by
  obtain ⟨k, -, hnot, -, ht⟩ := (searchTicket_some_iff seed n w fuel a t).1 h
  exact ht ▸ hnot

/-- The freshly drawn pair is not yet in the winner log. -/
theorem draw_fresh_log (s : State) (inv : Inv s) (rid t : Nat)
    (round : LotteryRound) (hget : mapGet s.rounds rid = some round)
    (hst : round.status = RoundStatus.Closed)
    (hnotin : t ∉ winnersOf s rid) : (rid, t) ∉ s.winner_log := by
  intro hc
  obtain ⟨w', hw'⟩ := inv.log_recorded (rid, t) hc round hget hst
  exact hnotin (mem_winnersOf_of_get hw')

/-- Recording one winner of a Closed round (no tier completion) preserves the
invariant. -/
theorem Inv_draw_noCreate (s : State) (inv : Inv s) (rid t : Nat)
    (round round2 : LotteryRound) (w : WinInfo)
    (hget : mapGet s.rounds rid = some round)
    (hst : round.status = RoundStatus.Closed)
    (hnotin : t ∉ winnersOf s rid)
    (h2status : round2.status = RoundStatus.Closed)
    (htier2 : TierInv round2) :
    Inv { s with
          winning_tickets := mapInsert s.winning_tickets (rid, t) w
          winner_log := s.winner_log ++ [(rid, t)]
          rounds := mapInsert s.rounds rid round2 } := by
  have hfresh := draw_fresh_log s inv rid t round hget hst hnotin
  have hmem : ∀ e, e ∈ s.winner_log ++ [(rid, t)] →
      e ∈ s.winner_log ∨ e = (rid, t) := by
    intro e he
    rcases List.mem_append.1 he with h | h
    · exact Or.inl h
    · exact Or.inr (by simpa using h)
  constructor
  · intro rid1 r hget1
    by_cases hr : rid1 = rid
    · subst hr
      exact inv.counter_bound rid1 round hget
    · rw [mapGet_insert_ne _ _ _ _ hr] at hget1
      exact inv.counter_bound rid1 r hget1
  · intro e he
    rcases hmem e he with h | h
    · exact inv.log_bound e h
    · subst h
      exact inv.counter_bound rid round hget
  · intro e he r hget1 hst1
    by_cases hk : e = (rid, t)
    · subst hk
      exact ⟨_, mapGet_insert_self _ _ _⟩
    · rcases hmem e he with hh | hh
      · by_cases hr : e.1 = rid
        · rw [hr, mapGet_insert_self] at hget1
          obtain ⟨w', hw'⟩ := inv.log_recorded e hh round (hr ▸ hget) hst
          refine ⟨w', ?_⟩
          rw [mapGet_insert_ne _ _ _ _ hk]
          exact hw'
        · rw [mapGet_insert_ne _ _ _ _ hr] at hget1
          obtain ⟨w', hw'⟩ := inv.log_recorded e hh r hget1 hst1
          refine ⟨w', ?_⟩
          rw [mapGet_insert_ne _ _ _ _ hk]
          exact hw'
      · exact absurd hh hk
  · rw [List.nodup_append]
    exact ⟨inv.log_nodup, List.nodup_singleton _, by
      intro e he hmem1
      have : e = (rid, t) := by simpa using hmem1
      exact hfresh (this ▸ he)⟩
  · intro e he r hget1
    by_cases hr : e.1 = rid
    · rw [hr, mapGet_insert_self] at hget1
      injection hget1 with h
      rw [← h, h2status]
      simp
    · rw [mapGet_insert_ne _ _ _ _ hr] at hget1
      rcases hmem e he with hh | hh
      · exact inv.not_active e hh r hget1
      · exact absurd (congrArg Prod.fst hh) hr
  · intro rid1 r hget1
    by_cases hr : rid1 = rid
    · subst hr
      rw [mapGet_insert_self] at hget1
      injection hget1 with h
      rw [← h]
      exact htier2
    · rw [mapGet_insert_ne _ _ _ _ hr] at hget1
      exact inv.tier rid1 r hget1

/-- Recording the final winner of a round (tier 4 completes: the round is
marked Complete and the successor round is created) preserves the
invariant. -/
theorem Inv_draw_withCreate (s : State) (inv : Inv s) (rid t dp ts : Nat)
    (round round2 : LotteryRound) (w : WinInfo)
    (hget : mapGet s.rounds rid = some round)
    (hst : round.status = RoundStatus.Closed)
    (hnotin : t ∉ winnersOf s rid)
    (h2status : round2.status = RoundStatus.Complete)
    (htier2 : TierInv round2) :
    Inv { (create_lottery_round
            { s with
              winning_tickets := mapInsert s.winning_tickets (rid, t) w
              winner_log := s.winner_log ++ [(rid, t)] } dp ts).1 with
          rounds :=
            mapInsert
              (create_lottery_round
                { s with
                  winning_tickets := mapInsert s.winning_tickets (rid, t) w
                  winner_log := s.winner_log ++ [(rid, t)] } dp ts).1.rounds
              rid round2 } := by
  have hfresh := draw_fresh_log s inv rid t round hget hst hnotin
  have hrid_bound : rid ≤ s.round_counter := inv.counter_bound rid round hget
  set s' : State :=
    { s with
      winning_tickets := mapInsert s.winning_tickets (rid, t) w
      winner_log := s.winner_log ++ [(rid, t)] } with hs'
  have hs'cnt : s'.round_counter = s.round_counter := rfl
  have hs'rounds : s'.rounds = s.rounds := rfl
  have hmem : ∀ e, e ∈ s.winner_log ++ [(rid, t)] →
      e ∈ s.winner_log ∨ e = (rid, t) := by
    intro e he
    rcases List.mem_append.1 he with h | h
    · exact Or.inl h
    · exact Or.inr (by simpa using h)
  have hlogbound : ∀ e ∈ s.winner_log ++ [(rid, t)], e.1 ≤ s.round_counter := by
    intro e he
    rcases hmem e he with h | h
    · exact inv.log_bound e h
    · rw [h]
      exact hrid_bound
  constructor
  · intro rid1 r hget1
    rw [create_counter, hs'cnt]
    by_cases hr : rid1 = rid
    · omega
    · rw [mapGet_insert_ne _ _ _ _ hr] at hget1
      by_cases hnew : rid1 = s'.round_counter + 1
      · rw [hs'cnt] at hnew
        omega
      · by_cases hold : s'.round_counter + 1 > MAX_HISTORY_ROUNDS ∧
            rid1 = s'.round_counter + 1 - MAX_HISTORY_ROUNDS
        · rw [hold.2, create_rounds_get_old s' dp ts hold.1] at hget1
          exact absurd hget1 (by simp)
        · rw [create_rounds_get s' dp ts rid1 hnew hold, hs'rounds] at hget1
          have := inv.counter_bound rid1 r hget1
          omega
  · intro e he
    rw [create_log] at he
    rw [create_counter, hs'cnt]
    have := hlogbound e he
    omega
  · intro e he r hget1 hst1
    rw [create_log] at he
    by_cases hr : e.1 = rid
    · rw [hr, mapGet_insert_self] at hget1
      injection hget1 with h
      rw [← h, h2status] at hst1
      exact absurd hst1 (by simp)
    · rw [mapGet_insert_ne _ _ _ _ hr] at hget1
      by_cases hnew : e.1 = s'.round_counter + 1
      · have := hlogbound e he
        rw [hs'cnt] at hnew
        omega
      · by_cases hold : s'.round_counter + 1 > MAX_HISTORY_ROUNDS ∧
            e.1 = s'.round_counter + 1 - MAX_HISTORY_ROUNDS
        · rw [hold.2, create_rounds_get_old s' dp ts hold.1] at hget1
          exact absurd hget1 (by simp)
        · rw [create_rounds_get s' dp ts e.1 hnew hold, hs'rounds] at hget1
          rcases hmem e he with hh | hh
          · obtain ⟨w', hw'⟩ := inv.log_recorded e hh r hget1 hst1
            refine ⟨w', ?_⟩
            rw [create_wt_get s' dp ts e (fun hcon => hold hcon)]
            show mapGet (mapInsert s.winning_tickets (rid, t) w) e = some w'
            rw [mapGet_insert_ne _ _ _ _ (fun hk => hr (congrArg Prod.fst hk))]
            exact hw'
          · exact absurd (congrArg Prod.fst hh) hr
  · rw [create_log]
    show (s.winner_log ++ [(rid, t)]).Nodup
    rw [List.nodup_append]
    exact ⟨inv.log_nodup, List.nodup_singleton _, by
      intro e he hmem1
      have : e = (rid, t) := by simpa using hmem1
      exact hfresh (this ▸ he)⟩
  · intro e he r hget1
    rw [create_log] at he
    by_cases hr : e.1 = rid
    · rw [hr, mapGet_insert_self] at hget1
      injection hget1 with h
      rw [← h, h2status]
      simp
    · rw [mapGet_insert_ne _ _ _ _ hr] at hget1
      by_cases hnew : e.1 = s'.round_counter + 1
      · have := hlogbound e he
        rw [hs'cnt] at hnew
        omega
      · by_cases hold : s'.round_counter + 1 > MAX_HISTORY_ROUNDS ∧
            e.1 = s'.round_counter + 1 - MAX_HISTORY_ROUNDS
        · rw [hold.2, create_rounds_get_old s' dp ts hold.1] at hget1
          exact absurd hget1 (by simp)
        · rw [create_rounds_get s' dp ts e.1 hnew hold, hs'rounds] at hget1
          rcases hmem e he with hh | hh
          · exact inv.not_active e hh r hget1
          · exact absurd (congrArg Prod.fst hh) hr
  · intro rid1 r hget1
    by_cases hr : rid1 = rid
    · subst hr
      rw [mapGet_insert_self] at hget1
      injection hget1 with h
      rw [← h]
      exact htier2
    · rw [mapGet_insert_ne _ _ _ _ hr] at hget1
      by_cases hnew : rid1 = s'.round_counter + 1
      · rw [hnew, create_round_value] at hget1
        injection hget1 with h
        rw [← h]
        exact ⟨rfl, rfl, rfl, rfl, rfl, rfl, rfl, rfl, rfl⟩
      · by_cases hold : s'.round_counter + 1 > MAX_HISTORY_ROUNDS ∧
            rid1 = s'.round_counter + 1 - MAX_HISTORY_ROUNDS
        · rw [hold.2, create_rounds_get_old s' dp ts hold.1] at hget1
          exact absurd hget1 (by simp)
        · rw [create_rounds_get s' dp ts rid1 hnew hold, hs'rounds] at hget1
          exact inv.tier rid1 r hget1

/-- Drawing a winner preserves the invariant. -/
theorem Inv_draw (s : State) (inv : Inv s) (v rid ts dp : Nat) (s1 : State)
    (res : DrawResult) (h : generate_winner s v rid ts dp = .ok (s1, res)) :
    Inv s1 := by
  unfold generate_winner at h
  cases hget : mapGet s.rounds rid with
  | none => rw [hget] at h; exact absurd h (by simp)
  | some round =>
    rw [hget] at h
    simp only at h
    by_cases hstn : round.status ≠ RoundStatus.Closed
    · rw [if_pos hstn] at h; exact absurd h (by simp)
    · rw [if_neg hstn] at h
      have hst : round.status = RoundStatus.Closed := by
        by_contra hc
        exact hstn hc
      have htier := inv.tier rid round hget
      rw [TierInv, hst] at htier
      obtain ⟨hq1, hq2, hq3, hq4, hcur⟩ := htier
      cases hpool : round.current_winner_pool with
      | Complete =>
        rw [CursorInv, hpool] at hcur
        exact hcur.elim
      | Pool1 =>
        rw [CursorInv, hpool] at hcur
        obtain ⟨hlt1, hz2, hz3, hz4⟩ := hcur
        simp only [hpool] at h
        rw [if_neg (by omega : ¬ round.pool1_winners_drawn ≥ round.pool1_count)] at h
        cases hsearch : searchTicket v round.total_tickets_sold (winnersOf s rid) 0
            (wrap64 (round.total_tickets_sold * 2)) with
        | none => rw [hsearch] at h; exact absurd h (by simp)
        | some t =>
          rw [hsearch] at h
          simp only at h
          cases howner : mapGet s.ticket_to_owner (rid, t) with
          | none => rw [howner] at h; exact absurd h (by simp)
          | some o =>
            rw [howner] at h
            simp only at h
            have hnotin : t ∉ winnersOf s rid := searchTicket_not_mem hsearch
            by_cases hcpl : round.pool1_count ≤ round.pool1_winners_drawn + 1
            · have hd : decide (round.pool1_winners_drawn + 1 ≥ round.pool1_count)
                  = true := decide_eq_true (by omega)
              rw [if_pos hd] at h
              simp at h
              obtain ⟨h1, -⟩ := h
              subst h1
              refine Inv_draw_noCreate s inv rid t round _ _ hget hst hnotin hst ?_
              rw [TierInv]
              simp only [hst]
              refine ⟨hq1, hq2, hq3, hq4, ?_⟩
              rw [CursorInv]
              simp only
              exact ⟨by omega, by omega, hz3, hz4⟩
            · have hd : decide (round.pool1_winners_drawn + 1 ≥ round.pool1_count)
                  = false := decide_eq_false (by omega)
              rw [if_neg (by simp [hd])] at h
              simp at h
              obtain ⟨h1, -⟩ := h
              subst h1
              rw [if_neg hcpl]
              refine Inv_draw_noCreate s inv rid t round _ _ hget hst hnotin hst ?_
              rw [TierInv]
              simp only [hst]
              refine ⟨hq1, hq2, hq3, hq4, ?_⟩
              rw [CursorInv]
              simp only
              exact ⟨by omega, hz2, hz3, hz4⟩
      | Pool2 =>
        rw [CursorInv, hpool] at hcur
        obtain ⟨he1, hlt2, hz3, hz4⟩ := hcur
        simp only [hpool] at h
        rw [if_neg (by omega : ¬ round.pool2_winners_drawn ≥ round.pool2_count)] at h
        cases hsearch : searchTicket v round.total_tickets_sold (winnersOf s rid) 0
            (wrap64 (round.total_tickets_sold * 2)) with
        | none => rw [hsearch] at h; exact absurd h (by simp)
        | some t =>
          rw [hsearch] at h
          simp only at h
          cases howner : mapGet s.ticket_to_owner (rid, t) with
          | none => rw [howner] at h; exact absurd h (by simp)
          | some o =>
            rw [howner] at h
            simp only at h
            have hnotin : t ∉ winnersOf s rid := searchTicket_not_mem hsearch
            by_cases hcpl : round.pool2_count ≤ round.pool2_winners_drawn + 1
            · have hd : decide (round.pool2_winners_drawn + 1 ≥ round.pool2_count)
                  = true := decide_eq_true (by omega)
              rw [if_pos hd] at h
              simp at h
              obtain ⟨h1, -⟩ := h
              subst h1
              refine Inv_draw_noCreate s inv rid t round _ _ hget hst hnotin hst ?_
              rw [TierInv]
              simp only [hst]
              refine ⟨hq1, hq2, hq3, hq4, ?_⟩
              rw [CursorInv]
              simp only
              exact ⟨he1, by omega, by omega, hz4⟩
            · have hd : decide (round.pool2_winners_drawn + 1 ≥ round.pool2_count)
                  = false := decide_eq_false (by omega)
              rw [if_neg (by simp [hd])] at h
              simp at h
              obtain ⟨h1, -⟩ := h
              subst h1
              rw [if_neg hcpl]
              refine Inv_draw_noCreate s inv rid t round _ _ hget hst hnotin hst ?_
              rw [TierInv]
              simp only [hst]
              refine ⟨hq1, hq2, hq3, hq4, ?_⟩
              rw [CursorInv]
              simp only
              exact ⟨he1, by omega, hz3, hz4⟩
      | Pool3 =>
        rw [CursorInv, hpool] at hcur
        obtain ⟨he1, he2, hlt3, hz4⟩ := hcur
        simp only [hpool] at h
        rw [if_neg (by omega : ¬ round.pool3_winners_drawn ≥ round.pool3_count)] at h
        cases hsearch : searchTicket v round.total_tickets_sold (winnersOf s rid) 0
            (wrap64 (round.total_tickets_sold * 2)) with
        | none => rw [hsearch] at h; exact absurd h (by simp)
        | some t =>
          rw [hsearch] at h
          simp only at h
          cases howner : mapGet s.ticket_to_owner (rid, t) with
          | none => rw [howner] at h; exact absurd h (by simp)
          | some o =>
            rw [howner] at h
            simp only at h
            have hnotin : t ∉ winnersOf s rid := searchTicket_not_mem hsearch
            by_cases hcpl : round.pool3_count ≤ round.pool3_winners_drawn + 1
            · have hd : decide (round.pool3_winners_drawn + 1 ≥ round.pool3_count)
                  = true := decide_eq_true (by omega)
              rw [if_pos hd] at h
              simp at h
              obtain ⟨h1, -⟩ := h
              subst h1
              refine Inv_draw_noCreate s inv rid t round _ _ hget hst hnotin hst ?_
              rw [TierInv]
              simp only [hst]
              refine ⟨hq1, hq2, hq3, hq4, ?_⟩
              rw [CursorInv]
              simp only
              exact ⟨he1, he2, by omega, by omega⟩
            · have hd : decide (round.pool3_winners_drawn + 1 ≥ round.pool3_count)
                  = false := decide_eq_false (by omega)
              rw [if_neg (by simp [hd])] at h
              simp at h
              obtain ⟨h1, -⟩ := h
              subst h1
              rw [if_neg hcpl]
              refine Inv_draw_noCreate s inv rid t round _ _ hget hst hnotin hst ?_
              rw [TierInv]
              simp only [hst]
              refine ⟨hq1, hq2, hq3, hq4, ?_⟩
              rw [CursorInv]
              simp only
              exact ⟨he1, he2, by omega, hz4⟩
      | Pool4 =>
        rw [CursorInv, hpool] at hcur
        obtain ⟨he1, he2, he3, hlt4⟩ := hcur
        simp only [hpool] at h
        rw [if_neg (by omega : ¬ round.pool4_winners_drawn ≥ round.pool4_count)] at h
        cases hsearch : searchTicket v round.total_tickets_sold (winnersOf s rid) 0
            (wrap64 (round.total_tickets_sold * 2)) with
        | none => rw [hsearch] at h; exact absurd h (by simp)
        | some t =>
          rw [hsearch] at h
          simp only at h
          cases howner : mapGet s.ticket_to_owner (rid, t) with
          | none => rw [howner] at h; exact absurd h (by simp)
          | some o =>
            rw [howner] at h
            simp only at h
            have hnotin : t ∉ winnersOf s rid := searchTicket_not_mem hsearch
            by_cases hcpl : round.pool4_count ≤ round.pool4_winners_drawn + 1
            · have hd : decide (round.pool4_winners_drawn + 1 ≥ round.pool4_count)
                  = true := decide_eq_true (by omega)
              rw [if_pos hd] at h
              simp at h
              obtain ⟨h1, -⟩ := h
              subst h1
              refine Inv_draw_withCreate s inv rid t dp ts round _ _ hget hst
                hnotin rfl ?_
              rw [TierInv]
              simp only
              exact ⟨trivial, he1, he2, he3, by omega⟩
            · have hd : decide (round.pool4_winners_drawn + 1 ≥ round.pool4_count)
                  = false := decide_eq_false (by omega)
              rw [if_neg (by simp [hd])] at h
              simp at h
              obtain ⟨h1, -⟩ := h
              subst h1
              rw [if_neg hcpl]
              refine Inv_draw_noCreate s inv rid t round _ _ hget hst hnotin hst ?_
              rw [TierInv]
              simp only [hst]
              refine ⟨hq1, hq2, hq3, hq4, ?_⟩
              rw [CursorInv]
              simp only
              exact ⟨he1, he2, he3, by omega⟩

/-- Every transaction preserves the invariant. -/
theorem Inv_step (s : State) (inv : Inv s) (op : Op) : Inv (step s op) := by
  cases op with
  | create p ts => exact Inv_create s inv p ts
  | purchase o a p src =>
    simp only [step]
    cases h : purchase_tickets s o a p src with
    | error e => exact inv
    | ok pr =>
      obtain ⟨s1, r⟩ := pr
      exact Inv_purchase s inv o a p src s1 r h
  | close ts =>
    simp only [step]
    cases h : close_lottery_round s ts with
    | error e => exact inv
    | ok pr =>
      obtain ⟨s1, rid⟩ := pr
      exact Inv_close s inv ts s1 rid h
  | draw v rid ts dp =>
    simp only [step]
    cases h : generate_winner s v rid ts dp with
    | error e => exact inv
    | ok pr =>
      obtain ⟨s1, res⟩ := pr
      exact Inv_draw s inv v rid ts dp s1 res h
  | markClaimed rid t =>
    simp only [step]
    cases h : mark_prize_claimed s rid t with
    | error e => exact inv
    | ok s1 => exact Inv_markClaimed s inv rid t s1 h

/-- The invariant holds in every reachable lottery state. -/
theorem Inv_run (ops : List Op) : Inv (run ops) := by
  unfold run
  have hgen : ∀ s, Inv s → Inv (ops.foldl step s) := by
    induction ops with
    | nil => intro s hs; exact hs
    | cons op ops ih =>
      intro s hs
      exact ih _ (Inv_step s hs op)
  exact hgen initState Inv_init

end Lottery

/-- Keys of a map stay duplicate-free under insertion. -/
theorem mapKeys_insert_nodup {K V : Type} [DecidableEq K]
    (m : List (K × V)) (k : K) (v : V) (h : (mapKeys m).Nodup) :
    (mapKeys (mapInsert m k v)).Nodup := by
  unfold mapKeys mapInsert
  simp only [List.map_cons, List.nodup_cons]
  constructor
  · intro hc
    obtain ⟨p, hp, hpk⟩ := List.mem_map.1 hc
    have := List.of_mem_filter hp
    simp only [decide_eq_true_eq] at this
    exact this hpk
  · exact List.Nodup.sublist (List.Sublist.map _ (List.filter_sublist m)) h

/-- Keys of a map stay duplicate-free under removal. -/
theorem mapKeys_remove_nodup {K V : Type} [DecidableEq K]
    (m : List (K × V)) (k : K) (h : (mapKeys m).Nodup) :
    (mapKeys (mapRemove m k)).Nodup := by
  unfold mapKeys mapRemove
  exact List.Nodup.sublist (List.Sublist.map _ (List.filter_sublist m)) h

/-- Membership after an insertion. -/
theorem mem_mapInsert {K V : Type} [DecidableEq K]
    {m : List (K × V)} {k : K} {v : V} {p : K × V}
    (h : p ∈ mapInsert m k v) : p = (k, v) ∨ p ∈ m := by
  unfold mapInsert at h
  rcases List.mem_cons.1 h with h | h
  · exact Or.inl h
  · exact Or.inr (List.mem_of_mem_filter h)

namespace Predict

/-- The inductive invariant of the prediction-rounds application state. -/
structure PInv (s : State) : Prop where
  counter_bound : ∀ rid r, mapGet s.rounds rid = some r → rid ≤ s.round_counter
  log_bound : ∀ e ∈ s.assignment_log, e.1 ≤ s.round_counter
  log_resolved : ∀ e ∈ s.assignment_log, ∀ r, mapGet s.rounds e.1 = some r →
      r.status = RoundStatus.Resolved
  log_nodup : s.assignment_log.Nodup
  closed_keys : (mapKeys s.closed_bets).Nodup
  active_owner : ∀ p ∈ s.active_bets, p.2.owner = p.1
  closed_owner : ∀ p ∈ s.closed_bets, p.2.owner = p.1.2

theorem PInv_init : PInv initState := by
  refine ⟨?_, ?_, ?_, ?_, ?_, ?_, ?_⟩ <;>
    simp [initState, mapGet, mapKeys]

/-- Creating a round preserves the invariant. -/
theorem PInv_create (s : State) (inv : PInv s) (ts : Nat) :
    PInv (create_round s ts).1 := by
  unfold create_round
  constructor
  · intro rid r hget
    simp only
    by_cases hr : rid = s.round_counter + 1
    · omega
    · rw [mapGet_insert_ne _ _ _ _ hr] at hget
      have := inv.counter_bound rid r hget
      omega
  · intro e he
    have := inv.log_bound e he
    simp only
    omega
  · intro e he r hget
    simp only at hget
    by_cases hr : e.1 = s.round_counter + 1
    · have := inv.log_bound e he
      omega
    · rw [mapGet_insert_ne _ _ _ _ hr] at hget
      exact inv.log_resolved e he r hget
  · exact inv.log_nodup
  · exact inv.closed_keys
  · intro p hp
    simp at hp
  · exact inv.closed_owner

/-- Placing a bet preserves the invariant. -/
theorem PInv_bet (s : State) (inv : PInv s) (o a : Nat) (d : Direction)
    (src : Option Nat) (s1 : State) (h : place_bet s o a d src = .ok s1) :
    PInv s1 := by
  unfold place_bet at h
  cases hact : s.active_round with
  | none => rw [hact] at h; exact absurd h (by simp)
  | some rid =>
    rw [hact] at h
    simp only at h
    cases hget : mapGet s.rounds rid with
    | none => rw [hget] at h; exact absurd h (by simp)
    | some round =>
      rw [hget] at h
      simp only at h
      by_cases hstn : round.status ≠ RoundStatus.Active
      · rw [if_pos hstn] at h
        exact absurd h (by simp)
      · rw [if_neg hstn] at h
        have hst : round.status = RoundStatus.Active := by
          by_contra hc
          exact hstn hc
        have hnolog : ∀ e ∈ s.assignment_log, e.1 ≠ rid := by
          intro e he hc
          have := inv.log_resolved e he round (hc ▸ hget)
          rw [hst] at this
          exact absurd this (by simp)
        simp only [Except.ok.injEq] at h
        subst h
        have howner : ∀ bet2 : PredictionBet,
            (match mapGet s.active_bets o with
              | some old_bet =>
                match d with
                | Direction.Up =>
                  ({ old_bet with
                      amount_up := satAdd128 old_bet.amount_up a },
                   if old_bet.amount_up = 0 then
                     { round with up_bets := round.up_bets + 1 }
                   else round)
                | Direction.Down =>
                  ({ old_bet with
                      amount_down := satAdd128 old_bet.amount_down a },
                   if old_bet.amount_down = 0 then
                     { round with down_bets := round.down_bets + 1 }
                   else round)
              | none =>
                match d with
                | Direction.Up =>
                  ({ owner := o, amount_up := a, amount_down := 0,
                     claimed := false, source_chain_id := src },
                   { round with up_bets := round.up_bets + 1 })
                | Direction.Down =>
                  ({ owner := o, amount_up := 0, amount_down := a,
                     claimed := false, source_chain_id := src },
                   { round with down_bets := round.down_bets + 1 })).1
              = bet2 → bet2.owner = o := by
          intro bet2 hbet2
          cases hold : mapGet s.active_bets o with
          | some old_bet =>
            rw [hold] at hbet2
            have hoo := inv.active_owner (o, old_bet)
              (mapGet_eq_some_mem hold)
            cases d <;> simp only at hbet2 <;> rw [← hbet2] <;> exact hoo
          | none =>
            rw [hold] at hbet2
            cases d <;> simp only at hbet2 <;> rw [← hbet2]
        constructor
        · intro rid1 r hget1
          simp only at hget1 ⊢
          by_cases hr : rid1 = rid
          · subst hr
            exact inv.counter_bound rid1 round hget
          · rw [mapGet_insert_ne _ _ _ _ hr] at hget1
            exact inv.counter_bound rid1 r hget1
        · exact inv.log_bound
        · intro e he r hget1
          simp only at hget1
          by_cases hr : e.1 = rid
          · exact absurd hr (hnolog e he)
          · rw [mapGet_insert_ne _ _ _ _ hr] at hget1
            exact inv.log_resolved e he r hget1
        · exact inv.log_nodup
        · exact inv.closed_keys
        · intro p hp
          simp only at hp
          rcases mem_mapInsert hp with hp1 | hp1
          · rw [hp1]
            exact howner _ rfl
          · exact inv.active_owner p hp1
        · exact inv.closed_owner

end Predict

/-- Folding insertions over a list keeps the key list duplicate-free. -/
theorem foldl_mapInsert_keys_nodup {A K V : Type} [DecidableEq K]
    (l : List A) (fk : A → K) (fv : A → V) :
    ∀ m : List (K × V), (mapKeys m).Nodup →
      (mapKeys (l.foldl (fun acc p => mapInsert acc (fk p) (fv p)) m)).Nodup := by
  induction l with
  | nil => intro m h; exact h
  | cons q l ih =>
    intro m h
    exact ih _ (mapKeys_insert_nodup m (fk q) (fv q) h)

/-- Membership after folding insertions. -/
theorem mem_foldl_mapInsert {A K V : Type} [DecidableEq K]
    (l : List A) (fk : A → K) (fv : A → V) :
    ∀ (m : List (K × V)) (p : K × V),
      p ∈ l.foldl (fun acc q => mapInsert acc (fk q) (fv q)) m →
      p ∈ m ∨ ∃ q ∈ l, p = (fk q, fv q) := by
  induction l with
  | nil => intro m p hp; exact Or.inl hp
  | cons q l ih =>
    intro m p hp
    rcases ih _ p hp with hp1 | hp1
    · rcases mem_mapInsert hp1 with hp2 | hp2
      · exact Or.inr ⟨q, List.mem_cons_self _ _, hp2⟩
      · exact Or.inl hp2
    · obtain ⟨q1, hq1, hq2⟩ := hp1
      exact Or.inr ⟨q1, List.mem_cons_of_mem _ hq1, hq2⟩

/-- Folding removals keeps the key list duplicate-free. -/
theorem foldl_mapRemove_keys_nodup {A K V : Type} [DecidableEq K]
    (l : List A) (fk : A → K) :
    ∀ m : List (K × V), (mapKeys m).Nodup →
      (mapKeys (l.foldl (fun acc p => mapRemove acc (fk p)) m)).Nodup := by
  induction l with
  | nil => intro m h; exact h
  | cons q l ih =>
    intro m h
    exact ih _ (mapKeys_remove_nodup m (fk q) h)

/-- Membership after folding removals. -/
theorem mem_foldl_mapRemove {A K V : Type} [DecidableEq K]
    (l : List A) (fk : A → K) :
    ∀ (m : List (K × V)) (p : K × V),
      p ∈ l.foldl (fun acc q => mapRemove acc (fk q)) m → p ∈ m := by
  induction l with
  | nil => intro m p hp; exact hp
  | cons q l ih =>
    intro m p hp
    exact List.mem_of_mem_filter (ih _ p hp)

namespace Predict

/-- Closing a round preserves the invariant. -/
theorem PInv_close (s : State) (inv : PInv s) (cp ts : Nat) (s1 : State)
    (nid : Nat) (h : close_round s cp ts = .ok (s1, nid)) : PInv s1 := by
  unfold close_round at h
  cases hact : s.active_round with
  | none => rw [hact] at h; exact absurd h (by simp)
  | some rid =>
    rw [hact] at h
    simp only at h
    cases hget : mapGet s.rounds rid with
    | none => rw [hget] at h; exact absurd h (by simp)
    | some round =>
      rw [hget] at h
      simp only at h
      by_cases hstn : round.status ≠ RoundStatus.Active
      · rw [if_pos hstn] at h
        exact absurd h (by simp)
      · rw [if_neg hstn] at h
        have hst : round.status = RoundStatus.Active := by
          by_contra hc
          exact hstn hc
        have hnolog : ∀ e ∈ s.assignment_log, e.1 ≠ rid := by
          intro e he hc
          have := inv.log_resolved e he round (hc ▸ hget)
          rw [hst] at this
          exact absurd this (by simp)
        have hridb : rid ≤ s.round_counter := inv.counter_bound rid round hget
        simp only [Except.ok.injEq, Prod.mk.injEq] at h
        obtain ⟨h1, -⟩ := h
        subst h1
        constructor
        · intro rid1 r hget1
          simp only at hget1 ⊢
          by_cases hn : rid1 = s.round_counter + 1
          · omega
          · rw [mapGet_insert_ne _ _ _ _ hn] at hget1
            by_cases hr : rid1 = rid
            · omega
            · rw [mapGet_insert_ne _ _ _ _ hr] at hget1
              have := inv.counter_bound rid1 r hget1
              omega
        · intro e he
          simp only at he ⊢
          have := inv.log_bound e he
          omega
        · intro e he r hget1
          simp only at he hget1
          by_cases hn : e.1 = s.round_counter + 1
          · have := inv.log_bound e he
            omega
          · rw [mapGet_insert_ne _ _ _ _ hn] at hget1
            by_cases hr : e.1 = rid
            · exact absurd hr (hnolog e he)
            · rw [mapGet_insert_ne _ _ _ _ hr] at hget1
              exact inv.log_resolved e he r hget1
        · exact inv.log_nodup
        · simp only
          exact foldl_mapInsert_keys_nodup s.active_bets
            (fun p => (rid, p.1)) (fun p => p.2) s.closed_bets inv.closed_keys
        · intro p hp
          simp at hp
        · intro p hp
          simp only at hp
          rcases mem_foldl_mapInsert s.active_bets (fun q => (rid, q.1))
              (fun q => q.2) s.closed_bets p hp with hp1 | hp1
          · exact inv.closed_owner p hp1
          · obtain ⟨q, hq, hq2⟩ := hp1
            rw [hq2]
            exact inv.active_owner q hq

/-- Resolving a round preserves the invariant. -/
theorem PInv_resolve (s : State) (inv : PInv s) (rid rp ts : Nat) (s1 : State)
    (rows : List RewardRow)
    (h : resolve_round_and_distribute_rewards s rid rp ts = .ok (s1, rows)) :
    PInv s1 := by
  unfold resolve_round_and_distribute_rewards at h
  cases hget : mapGet s.rounds rid with
  | none => rw [hget] at h; exact absurd h (by simp)
  | some round =>
    rw [hget] at h
    simp only at h
    by_cases hstn : round.status ≠ RoundStatus.Closed
    · rw [if_pos hstn] at h
      exact absurd h (by simp)
    · rw [if_neg hstn] at h
      have hst : round.status = RoundStatus.Closed := by
        by_contra hc
        exact hstn hc
      cases hcp : round.closing_price with
      | none => rw [hcp] at h; exact absurd h (by simp)
      | some cp =>
        rw [hcp] at h
        simp only [Except.ok.injEq, Prod.mk.injEq] at h
        obtain ⟨h1, -⟩ := h
        subst h1
        have hnolog : ∀ e ∈ s.assignment_log, e.1 ≠ rid := by
          intro e he hc
          have := inv.log_resolved e he round (hc ▸ hget)
          rw [hst] at this
          exact absurd this (by simp)
        have hridb : rid ≤ s.round_counter := inv.counter_bound rid round hget
        have hbatch : ∀ e : Nat × Nat,
            e ∈ List.map
              (fun row => (rid, row.owner))
              (List.map
                (fun p =>
                  rewardRow
                    (if rp > cp then some Direction.Up
                     else if rp < cp then some Direction.Down else none)
                    (match
                        (if rp > cp then some Direction.Up
                         else if rp < cp then some Direction.Down else none) with
                      | some Direction.Up => round.up_bets_pool
                      | some Direction.Down => round.down_bets_pool
                      | none => 0)
                    round.prize_pool p.2)
                (s.closed_bets.filter fun p => p.1.1 = rid)) →
            e.1 = rid := by
          intro e he
          obtain ⟨row, -, hrow⟩ := List.mem_map.1 he
          rw [← hrow]
        constructor
        · intro rid1 r hget1
          simp only at hget1 ⊢
          by_cases hr : rid1 = rid
          · subst hr
            exact inv.counter_bound rid1 round hget
          · rw [mapGet_insert_ne _ _ _ _ hr] at hget1
            exact inv.counter_bound rid1 r hget1
        · intro e he
          simp only at he ⊢
          rcases List.mem_append.1 he with he1 | he1
          · exact inv.log_bound e he1
          · rw [hbatch e he1]
            exact hridb
        · intro e he r hget1
          simp only at he hget1
          rcases List.mem_append.1 he with he1 | he1
          · have hr : e.1 ≠ rid := hnolog e he1
            rw [mapGet_insert_ne _ _ _ _ hr] at hget1
            exact inv.log_resolved e he1 r hget1
          · rw [hbatch e he1] at hget1
            rw [mapGet_insert_self] at hget1
            injection hget1 with h2
            rw [← h2]
        · simp only
          rw [List.nodup_append]
          refine ⟨inv.log_nodup, ?_, ?_⟩
          · rw [List.map_map]
            have hkeys : (mapKeys (s.closed_bets.filter
                fun p => p.1.1 = rid)).Nodup := by
              unfold mapKeys
              exact List.Nodup.sublist
                (List.Sublist.map _ (List.filter_sublist s.closed_bets))
                inv.closed_keys
            have hmapped :
                List.map
                  ((fun row => (rid, row.owner)) ∘
                    (fun p =>
                      rewardRow
                        (if rp > cp then some Direction.Up
                         else if rp < cp then some Direction.Down else none)
                        (match
                            (if rp > cp then some Direction.Up
                             else if rp < cp then some Direction.Down
                             else none) with
                          | some Direction.Up => round.up_bets_pool
                          | some Direction.Down => round.down_bets_pool
                          | none => 0)
                        round.prize_pool p.2))
                  (s.closed_bets.filter fun p => p.1.1 = rid) =
                List.map (fun k => (rid, k.2))
                  (mapKeys (s.closed_bets.filter fun p => p.1.1 = rid)) := by
              unfold mapKeys
              rw [List.map_map]
              apply List.map_congr_left
              intro p hp
              have hme := List.mem_of_mem_filter hp
              have := inv.closed_owner p hme
              simp only [Function.comp, rewardRow]
              rw [this]
            rw [hmapped]
            apply List.Nodup.map_on
            · intro x hx y hy hxy
              have hx1 : x.1 = rid := by
                obtain ⟨p, hp, hp2⟩ := List.mem_map.1 hx
                have := List.of_mem_filter hp
                simp only [decide_eq_true_eq] at this
                rw [← hp2]
                exact this
              have hy1 : y.1 = rid := by
                obtain ⟨p, hp, hp2⟩ := List.mem_map.1 hy
                have := List.of_mem_filter hp
                simp only [decide_eq_true_eq] at this
                rw [← hp2]
                exact this
              have hx2 : x.2 = y.2 := by
                have := congrArg Prod.snd hxy
                simpa using this
              cases x
              cases y
              simp only at hx1 hy1 hx2
              rw [hx1, hy1, hx2]
            · exact hkeys
          · intro e he1 he2
            have h1 := hnolog e he1
            have h2 := hbatch e he2
            exact h1 h2
        · simp only
          exact foldl_mapRemove_keys_nodup
            (s.closed_bets.filter fun p => p.1.1 = rid)
            (fun (q : (Nat × Nat) × PredictionBet) => q.1) s.closed_bets
            inv.closed_keys
        · exact inv.active_owner
        · intro p hp
          simp only at hp
          exact inv.closed_owner p
            (mem_foldl_mapRemove
              (s.closed_bets.filter fun p => p.1.1 = rid)
              (fun (q : (Nat × Nat) × PredictionBet) => q.1) s.closed_bets p hp)

/-- Every transaction preserves the invariant. -/
theorem PInv_step (s : State) (inv : PInv s) (op : Op) : PInv (step s op) := by
  cases op with
  | create ts => exact PInv_create s inv ts
  | close cp ts =>
    simp only [step]
    cases h : close_round s cp ts with
    | error e => exact inv
    | ok pr =>
      obtain ⟨s1, nid⟩ := pr
      exact PInv_close s inv cp ts s1 nid h
  | resolve rid rp ts =>
    simp only [step]
    cases h : resolve_round_and_distribute_rewards s rid rp ts with
    | error e => exact inv
    | ok pr =>
      obtain ⟨s1, rows⟩ := pr
      exact PInv_resolve s inv rid rp ts s1 rows h
  | bet o a d src =>
    simp only [step]
    cases h : place_bet s o a d src with
    | error e => exact inv
    | ok s1 => exact PInv_bet s inv o a d src s1 h

/-- The invariant holds in every reachable prediction state. -/
theorem PInv_run (ops : List Op) : PInv (run ops) := by
  unfold run
  have hgen : ∀ s, PInv s → PInv (ops.foldl step s) := by
    induction ops with
    | nil => intro s hs; exact hs
    | cons op ops ih =>
      intro s hs
      exact ih _ (PInv_step s hs op)
  exact hgen initState PInv_init

end Predict

/-- C6.  In every reachable state of either application no winner is recorded
twice: the lottery's history of winner selections contains no repeated
(round, ticket) pair, and the prediction market's history of outcome
assignments contains no repeated (round, owner) pair. -/
theorem C6_no_double_win (lops : List Lottery.Op) (pops : List Predict.Op) :
    (Lottery.run lops).winner_log.Nodup ∧
    (Predict.run pops).assignment_log.Nodup :=
  ⟨(Lottery.Inv_run lops).log_nodup, (Predict.PInv_run pops).log_nodup⟩

namespace Lottery

/-- C7.  Winners are produced strictly in tier order.  Every successful draw
from a reachable state counts its winner against the current cursor tier:
every earlier tier has already met its quota, every later tier is untouched,
and the cursor advances exactly when the current tier's drawn count reaches
its quota. -/
theorem C7_tier_order (ops : List Op) (v rid ts dp : Nat) (s1 : State)
    (res : DrawResult)
    (h : generate_winner (run ops) v rid ts dp = .ok (s1, res)) :
    ∃ round round1,
      mapGet (run ops).rounds rid = some round ∧
      mapGet s1.rounds rid = some round1 ∧
      round.current_winner_pool ≠ WinnerPool.Complete ∧
      drawnOf round1 round.current_winner_pool =
        drawnOf round round.current_winner_pool + 1 ∧
      (∀ pool, pool ≠ round.current_winner_pool →
        drawnOf round1 pool = drawnOf round pool) ∧
      (∀ pool, tierIdx pool < tierIdx round.current_winner_pool →
        drawnOf round pool = quotaOf round pool) ∧
      (∀ pool, tierIdx round.current_winner_pool < tierIdx pool →
        pool ≠ WinnerPool.Complete → drawnOf round pool = 0) ∧
      (round1.current_winner_pool ≠ round.current_winner_pool →
        drawnOf round1 round.current_winner_pool =
          quotaOf round round.current_winner_pool) := by
  have inv : Inv (run ops) := Inv_run ops
  revert h
  generalize run ops = s at inv ⊢
  intro h
  unfold generate_winner at h
  cases hget : mapGet s.rounds rid with
  | none => rw [hget] at h; exact absurd h (by simp)
  | some round =>
    rw [hget] at h
    simp only at h
    by_cases hstn : round.status ≠ RoundStatus.Closed
    · rw [if_pos hstn] at h; exact absurd h (by simp)
    · rw [if_neg hstn] at h
      have hst : round.status = RoundStatus.Closed := by
        by_contra hc
        exact hstn hc
      have htier := inv.tier rid round hget
      rw [TierInv, hst] at htier
      obtain ⟨hq1, hq2, hq3, hq4, hcur⟩ := htier
      cases hpool : round.current_winner_pool with
      | Complete =>
        rw [CursorInv, hpool] at hcur
        exact hcur.elim
      | Pool1 =>
        rw [CursorInv, hpool] at hcur
        obtain ⟨hlt1, hz2, hz3, hz4⟩ := hcur
        simp only [hpool] at h
        rw [if_neg (by omega : ¬ round.pool1_winners_drawn ≥ round.pool1_count)] at h
        cases hsearch : searchTicket v round.total_tickets_sold (winnersOf s rid) 0
            (wrap64 (round.total_tickets_sold * 2)) with
        | none => rw [hsearch] at h; exact absurd h (by simp)
        | some t =>
          rw [hsearch] at h
          simp only at h
          cases howner : mapGet s.ticket_to_owner (rid, t) with
          | none => rw [howner] at h; exact absurd h (by simp)
          | some o =>
            rw [howner] at h
            simp only at h
            by_cases hcpl : round.pool1_count ≤ round.pool1_winners_drawn + 1
            · have hd : decide (round.pool1_winners_drawn + 1 ≥ round.pool1_count)
                  = true := decide_eq_true (by omega)
              rw [if_pos hd] at h
              simp at h
              obtain ⟨h1, -⟩ := h
              subst h1
              refine ⟨round, _, rfl, mapGet_insert_self _ _ _,
                by simp [hpool], by simp [hpool, drawnOf], ?_, ?_, ?_, ?_⟩
              · intro pool hne
                rw [hpool] at hne
                cases pool <;> simp [drawnOf] at hne ⊢
              · intro pool hlt
                rw [hpool] at hlt
                cases pool <;>
                  simp [tierIdx, drawnOf, quotaOf] at hlt ⊢ <;> omega
              · intro pool hgt hne
                rw [hpool] at hgt
                cases pool <;>
                  simp [tierIdx, drawnOf] at hgt hne ⊢ <;> omega
              · intro hne
                rw [hpool]
                simp only [drawnOf, quotaOf]
                omega
            · have hd : decide (round.pool1_winners_drawn + 1 ≥ round.pool1_count)
                  = false := decide_eq_false (by omega)
              rw [if_neg (by simp [hd])] at h
              simp at h
              obtain ⟨h1, -⟩ := h
              subst h1
              rw [if_neg hcpl]
              refine ⟨round, _, rfl, mapGet_insert_self _ _ _,
                by simp [hpool], by simp [hpool, drawnOf], ?_, ?_, ?_, ?_⟩
              · intro pool hne
                rw [hpool] at hne
                cases pool <;> simp [drawnOf] at hne ⊢
              · intro pool hlt
                rw [hpool] at hlt
                cases pool <;>
                  simp [tierIdx, drawnOf, quotaOf] at hlt ⊢ <;> omega
              · intro pool hgt hne
                rw [hpool] at hgt
                cases pool <;>
                  simp [tierIdx, drawnOf] at hgt hne ⊢ <;> omega
              · intro hne
                exact absurd (by rw [hpool]) hne
      | Pool2 =>
        rw [CursorInv, hpool] at hcur
        obtain ⟨he1, hlt2, hz3, hz4⟩ := hcur
        simp only [hpool] at h
        rw [if_neg (by omega : ¬ round.pool2_winners_drawn ≥ round.pool2_count)] at h
        cases hsearch : searchTicket v round.total_tickets_sold (winnersOf s rid) 0
            (wrap64 (round.total_tickets_sold * 2)) with
        | none => rw [hsearch] at h; exact absurd h (by simp)
        | some t =>
          rw [hsearch] at h
          simp only at h
          cases howner : mapGet s.ticket_to_owner (rid, t) with
          | none => rw [howner] at h; exact absurd h (by simp)
          | some o =>
            rw [howner] at h
            simp only at h
            by_cases hcpl : round.pool2_count ≤ round.pool2_winners_drawn + 1
            · have hd : decide (round.pool2_winners_drawn + 1 ≥ round.pool2_count)
                  = true := decide_eq_true (by omega)
              rw [if_pos hd] at h
              simp at h
              obtain ⟨h1, -⟩ := h
              subst h1
              refine ⟨round, _, rfl, mapGet_insert_self _ _ _,
                by simp [hpool], by simp [hpool, drawnOf], ?_, ?_, ?_, ?_⟩
              · intro pool hne
                rw [hpool] at hne
                cases pool <;> simp [drawnOf] at hne ⊢
              · intro pool hlt
                rw [hpool] at hlt
                cases pool <;>
                  simp [tierIdx, drawnOf, quotaOf] at hlt ⊢ <;> omega
              · intro pool hgt hne
                rw [hpool] at hgt
                cases pool <;>
                  simp [tierIdx, drawnOf] at hgt hne ⊢ <;> omega
              · intro hne
                rw [hpool]
                simp only [drawnOf, quotaOf]
                omega
            · have hd : decide (round.pool2_winners_drawn + 1 ≥ round.pool2_count)
                  = false := decide_eq_false (by omega)
              rw [if_neg (by simp [hd])] at h
              simp at h
              obtain ⟨h1, -⟩ := h
              subst h1
              rw [if_neg hcpl]
              refine ⟨round, _, rfl, mapGet_insert_self _ _ _,
                by simp [hpool], by simp [hpool, drawnOf], ?_, ?_, ?_, ?_⟩
              · intro pool hne
                rw [hpool] at hne
                cases pool <;> simp [drawnOf] at hne ⊢
              · intro pool hlt
                rw [hpool] at hlt
                cases pool <;>
                  simp [tierIdx, drawnOf, quotaOf] at hlt ⊢ <;> omega
              · intro pool hgt hne
                rw [hpool] at hgt
                cases pool <;>
                  simp [tierIdx, drawnOf] at hgt hne ⊢ <;> omega
              · intro hne
                exact absurd (by rw [hpool]) hne
      | Pool3 =>
        rw [CursorInv, hpool] at hcur
        obtain ⟨he1, he2, hlt3, hz4⟩ := hcur
        simp only [hpool] at h
        rw [if_neg (by omega : ¬ round.pool3_winners_drawn ≥ round.pool3_count)] at h
        cases hsearch : searchTicket v round.total_tickets_sold (winnersOf s rid) 0
            (wrap64 (round.total_tickets_sold * 2)) with
        | none => rw [hsearch] at h; exact absurd h (by simp)
        | some t =>
          rw [hsearch] at h
          simp only at h
          cases howner : mapGet s.ticket_to_owner (rid, t) with
          | none => rw [howner] at h; exact absurd h (by simp)
          | some o =>
            rw [howner] at h
            simp only at h
            by_cases hcpl : round.pool3_count ≤ round.pool3_winners_drawn + 1
            · have hd : decide (round.pool3_winners_drawn + 1 ≥ round.pool3_count)
                  = true := decide_eq_true (by omega)
              rw [if_pos hd] at h
              simp at h
              obtain ⟨h1, -⟩ := h
              subst h1
              refine ⟨round, _, rfl, mapGet_insert_self _ _ _,
                by simp [hpool], by simp [hpool, drawnOf], ?_, ?_, ?_, ?_⟩
              · intro pool hne
                rw [hpool] at hne
                cases pool <;> simp [drawnOf] at hne ⊢
              · intro pool hlt
                rw [hpool] at hlt
                cases pool <;>
                  simp [tierIdx, drawnOf, quotaOf] at hlt ⊢ <;> omega
              · intro pool hgt hne
                rw [hpool] at hgt
                cases pool <;>
                  simp [tierIdx, drawnOf] at hgt hne ⊢ <;> omega
              · intro hne
                rw [hpool]
                simp only [drawnOf, quotaOf]
                omega
            · have hd : decide (round.pool3_winners_drawn + 1 ≥ round.pool3_count)
                  = false := decide_eq_false (by omega)
              rw [if_neg (by simp [hd])] at h
              simp at h
              obtain ⟨h1, -⟩ := h
              subst h1
              rw [if_neg hcpl]
              refine ⟨round, _, rfl, mapGet_insert_self _ _ _,
                by simp [hpool], by simp [hpool, drawnOf], ?_, ?_, ?_, ?_⟩
              · intro pool hne
                rw [hpool] at hne
                cases pool <;> simp [drawnOf] at hne ⊢
              · intro pool hlt
                rw [hpool] at hlt
                cases pool <;>
                  simp [tierIdx, drawnOf, quotaOf] at hlt ⊢ <;> omega
              · intro pool hgt hne
                rw [hpool] at hgt
                cases pool <;>
                  simp [tierIdx, drawnOf] at hgt hne ⊢ <;> omega
              · intro hne
                exact absurd (by rw [hpool]) hne
      | Pool4 =>
        rw [CursorInv, hpool] at hcur
        obtain ⟨he1, he2, he3, hlt4⟩ := hcur
        simp only [hpool] at h
        rw [if_neg (by omega : ¬ round.pool4_winners_drawn ≥ round.pool4_count)] at h
        cases hsearch : searchTicket v round.total_tickets_sold (winnersOf s rid) 0
            (wrap64 (round.total_tickets_sold * 2)) with
        | none => rw [hsearch] at h; exact absurd h (by simp)
        | some t =>
          rw [hsearch] at h
          simp only at h
          cases howner : mapGet s.ticket_to_owner (rid, t) with
          | none => rw [howner] at h; exact absurd h (by simp)
          | some o =>
            rw [howner] at h
            simp only at h
            by_cases hcpl : round.pool4_count ≤ round.pool4_winners_drawn + 1
            · have hd : decide (round.pool4_winners_drawn + 1 ≥ round.pool4_count)
                  = true := decide_eq_true (by omega)
              rw [if_pos hd] at h
              simp at h
              obtain ⟨h1, -⟩ := h
              subst h1
              refine ⟨round, _, rfl, mapGet_insert_self _ _ _,
                by simp [hpool], by simp [hpool, drawnOf], ?_, ?_, ?_, ?_⟩
              · intro pool hne
                rw [hpool] at hne
                cases pool <;> simp [drawnOf] at hne ⊢
              · intro pool hlt
                rw [hpool] at hlt
                cases pool <;>
                  simp [tierIdx, drawnOf, quotaOf] at hlt ⊢ <;> omega
              · intro pool hgt hne
                rw [hpool] at hgt
                cases pool <;>
                  simp [tierIdx, drawnOf] at hgt hne ⊢ <;> omega
              · intro hne
                rw [hpool]
                simp only [drawnOf, quotaOf]
                omega
            · have hd : decide (round.pool4_winners_drawn + 1 ≥ round.pool4_count)
                  = false := decide_eq_false (by omega)
              rw [if_neg (by simp [hd])] at h
              simp at h
              obtain ⟨h1, -⟩ := h
              subst h1
              rw [if_neg hcpl]
              refine ⟨round, _, rfl, mapGet_insert_self _ _ _,
                by simp [hpool], by simp [hpool, drawnOf], ?_, ?_, ?_, ?_⟩
              · intro pool hne
                rw [hpool] at hne
                cases pool <;> simp [drawnOf] at hne ⊢
              · intro pool hlt
                rw [hpool] at hlt
                cases pool <;>
                  simp [tierIdx, drawnOf, quotaOf] at hlt ⊢ <;> omega
              · intro pool hgt hne
                rw [hpool] at hgt
                cases pool <;>
                  simp [tierIdx, drawnOf] at hgt hne ⊢ <;> omega
              · intro hne
                exact absurd (by rw [hpool]) hne

/-- The end-to-end scenario operations: six tickets sold, round closed. -/
def c7ops : List Op :=
  [.create 10 0, .purchase 7 25 10 none, .purchase 8 40 10 none, .close 100]

/-- The closed round reached by `c7ops`. -/
def c7Round : LotteryRound :=
  { id := 1
    created_at := 0
    closed_at := some 100
    status := .Closed
    ticket_price := 10
    total_tickets_sold := 6
    next_ticket_number := 7
    prize_pool := 65
    current_winner_pool := .Pool1
    pool1_count := 1, pool2_count := 1, pool3_count := 1, pool4_count := 1
    pool1_winners_drawn := 0, pool2_winners_drawn := 0
    pool3_winners_drawn := 0, pool4_winners_drawn := 0 }

/-- C7 witness: the tier-order theorem applied to the first draw of the
concrete six-ticket scenario — the draw counts against tier 1. -/
theorem C7_tier_order_witness :
    (generate_winner (run c7ops) 5 1 200 10).toOption.map
        (fun p => (mapGet p.1.rounds 1).map
          (fun r => drawnOf r WinnerPool.Pool1)) = some (some 1) := by
  have hsome : (generate_winner (run c7ops) 5 1 200 10).toOption.isSome
      = true := by decide
  cases hok : generate_winner (run c7ops) 5 1 200 10 with
  | error e => rw [hok] at hsome; simp [Except.toOption] at hsome
  | ok p =>
    obtain ⟨round, round1, hg, hg1, -, hdrawn, -, -, -, -⟩ :=
      C7_tier_order c7ops 5 1 200 10 p.1 p.2 (by rw [hok])
    have hlit : mapGet (run c7ops).rounds 1 = some c7Round := by decide
    rw [hlit] at hg
    have hround : round = c7Round := (Option.some.inj hg).symm
    simp only [Except.toOption, Option.map]
    rw [hg1]
    simp only [Option.map]
    rw [hround] at hdrawn
    simpa using hdrawn

end Lottery

end Winza
